import Mathlib

set_option maxRecDepth 8000

/-!
# Verification of the token-budget / cache / monitoring core

A shallow embedding, in Lean 4, of the token-budget and response-lifecycle
management layer of the `hr-psychoanalyst-bot-v2` repository:

* `src/core/token_manager.py`  (TokenManager: counting, budget planning,
  context compression, response splitting, truncation detection)
* `src/ai/token_manager.py`    (earlier TokenManager variant)
* `src/core/context_compressor.py` (ContextCompressor)
* `src/ai/response_cache.py`   (ResponseCache: MD5-keyed, TTL-aware, LRU)
* `src/ai/token_monitor.py`    (TokenMonitor: per-user EMA usage patterns)
* `src/bot/config.py`          (BotConfig defaults and tier limit tables)

Python strings are modelled as Lean `String`s (Python `len` = number of
code points = `String.length`); Python ints as `Int`; Python floats as `Rat`
(every float constant appearing in the source is a small decimal, and none of
the verified properties depends on rounding behaviour).  Wall-clock time
(`datetime.now`, `time.time`) is passed in explicitly as an integer number of
seconds.  Each Python method becomes a pure function; methods that mutate
`self` take and return an explicit state value.
-/

/-! ## Python string primitives -/

/-- The characters Python's `str.strip()` removes (ASCII whitespace). -/
def pySpace (c : Char) : Bool :=
  c = ' ' ∨ c = '\t' ∨ c = '\n' ∨ c = '\r' ∨ c = '\x0b' ∨ c = '\x0c'

/-- Python `str.strip()` on a character list. -/
def pyStripL (l : List Char) : List Char :=
  ((l.dropWhile pySpace).reverse.dropWhile pySpace).reverse

/-- Python `str.strip()`. -/
def pyStrip (s : String) : String := ⟨pyStripL s.data⟩

/-- Auxiliary for `str.split(sep)` (non-empty separator): walks the list,
cutting at each non-overlapping occurrence of `sep`, left to right.  The
first argument is fuel (structural recursion so the kernel can evaluate);
every step consumes at least one character, so the list's length is always
enough fuel and the fuel-exhausted branch is unreachable. -/
def splitSepAux (sep : List Char) : Nat → List Char → List Char → List (List Char)
  | _, [], acc => [acc.reverse]
  | 0, l, acc => [acc.reverse ++ l]
  | f + 1, c :: rest, acc =>
    if sep.isPrefixOf (c :: rest) ∧ sep ≠ [] then
      acc.reverse :: splitSepAux sep f (List.drop (sep.length - 1) rest) []
    else
      splitSepAux sep f rest (c :: acc)

/-- Python `s.split(sep)` for a non-empty separator `sep`. -/
def pySplit (s : String) (sep : String) : List String :=
  (splitSepAux sep.data s.data.length s.data []).map fun l => ⟨l⟩

/-- Auxiliary for whitespace `str.split()`: accumulates maximal runs of
non-space characters, discarding empty runs. -/
def splitWsL : List Char → List Char → List (List Char)
  | [], acc => if acc.isEmpty then [] else [acc.reverse]
  | c :: rest, acc =>
    if pySpace c then
      if acc.isEmpty then splitWsL rest [] else acc.reverse :: splitWsL rest []
    else
      splitWsL rest (c :: acc)

/-- Python `s.split()` (split on whitespace runs, no empty words). -/
def pySplitWs (s : String) : List String :=
  (splitWsL s.data []).map fun l => ⟨l⟩

/-- Python `s.endswith(suffix)`. -/
def pyEndsWith (s suffix : String) : Bool :=
  suffix.data.isSuffixOf s.data

/-- `sub` occurs as a contiguous sublist of `l` (scan every suffix). -/
def listIsInfix (sub : List Char) : List Char → Bool
  | [] => sub.isEmpty
  | c :: rest => sub.isPrefixOf (c :: rest) || listIsInfix sub rest

/-- Python `sub in s` (substring containment). -/
def pyContains (s sub : String) : Bool :=
  listIsInfix sub.data s.data

/-- Python `str.lower()` on one character: ASCII letters plus the Cyrillic
range actually occurring in the source's keyword lists. -/
def pyLowerChar (c : Char) : Char :=
  if 'A' ≤ c ∧ c ≤ 'Z' then Char.ofNat (c.toNat + 32)
  else if 'А' ≤ c ∧ c ≤ 'Я' then Char.ofNat (c.toNat + 32)
  else if c = 'Ё' then 'ё'
  else c

/-- Python `s.lower()`. -/
def pyLower (s : String) : String := ⟨s.data.map pyLowerChar⟩

/-- Python `sep.join(parts)`. -/
def pyJoin (sep : String) : List String → String
  | [] => ""
  | [x] => x
  | x :: y :: rest => x ++ sep ++ pyJoin sep (y :: rest)

/-- Python `s[:-n]` (drop the last `n` characters). -/
def pyDropRight (s : String) (n : Nat) : String :=
  ⟨s.data.take (s.data.length - n)⟩

/-- Python `s[-n:]` (keep the last `n` characters). -/
def pyTakeRight (s : String) (n : Nat) : String :=
  ⟨s.data.drop (s.data.length - n)⟩

/-- Python `len(s)` (number of code points). -/
def pyLen (s : String) : Nat := s.data.length

/-- Python `lst[-n:]` on lists. -/
def pyLastN (l : List α) (n : Nat) : List α := l.drop (l.length - n)

/-- Python `lst[:-n]` on lists. -/
def pyDropLastN (l : List α) (n : Nat) : List α := l.take (l.length - n)

/-- Python `lst.insert(i, x)` for a possibly negative index `i`. -/
def pyInsert (l : List α) (i : Int) (x : α) : List α :=
  let k : Nat := if i < 0 then ((l.length : Int) + i).toNat else min i.toNat l.length
  l.take k ++ x :: l.drop k

/-- Decimal digit characters of a positive numeral, most significant first.
The first argument is fuel (structural recursion so the kernel can evaluate);
`n` itself is always enough fuel. -/
def natCharsAux : Nat → Nat → List Char
  | _, 0 => []
  | 0, _ + 1 => []
  | f + 1, n + 1 => natCharsAux f ((n + 1) / 10) ++ [Nat.digitChar ((n + 1) % 10)]

/-- Python `str(n)` for a natural number. -/
def pyStrNat (n : Nat) : String :=
  if n = 0 then "0" else ⟨natCharsAux n n⟩

/-- Python `str(i)` for an int. -/
def pyStrInt (i : Int) : String :=
  if i < 0 then "-" ++ pyStrNat (-i).toNat else pyStrNat i.toNat

/-! ## Configuration (`src/bot/config.py` `BotConfig`, `src/core/config.py`)

Only the numeric fields the verified components read.  The two config
classes carry the same default values for these fields. -/

structure BotConfig where
  max_tokens : Int
  context_window : Int
  response_tokens : Int
  min_tokens : Int
  max_message_length : Int
  max_conversation_length : Int
  cache_ttl : Int
  cache_size : Int
  deriving DecidableEq, Repr

/-- The default configuration values from `src/bot/config.py`. -/
def defaultConfig : BotConfig :=
  { max_tokens := 4000
    context_window := 3000
    response_tokens := 1000
    min_tokens := 100
    max_message_length := 4000
    max_conversation_length := 20
    cache_ttl := 3600
    cache_size := 1000 }

/-- `BotConfig.get_user_limits`: the `max_tokens` entry of the tier table
(`free` is also the fallback for unknown tiers). -/
def getUserLimitsMaxTokens (cfg : BotConfig) (user_type : String) : Int :=
  if user_type = "premium" then cfg.max_tokens + 1000 else cfg.max_tokens

/-- `BotConfig.get_adaptive_limits`: the `max_tokens` entry after the
conversation-length band adjustment. -/
def getAdaptiveLimitsMaxTokens (cfg : BotConfig) (conversation_length : Int)
    (user_type : String) : Int :=
  let base := getUserLimitsMaxTokens cfg user_type
  if conversation_length > 15 then max cfg.min_tokens (base - 500)
  else if conversation_length < 5 then min (cfg.max_tokens + 500) (base + 200)
  else base

/-! ## `src/core/token_manager.py` (`TokenManager`) -/

namespace Core

/-- `TokenUsage` (the fields claims refer to; `processing_time` and
`timestamp` are wall-clock metadata and are not modelled). -/
structure TokenUsage where
  prompt_tokens : Int
  completion_tokens : Int
  total_tokens : Int
  estimated_cost : Rat
  deriving DecidableEq, Repr

/-- `TokenManager.count_tokens`: `tiktoken` is disabled in this module
(`self.encoding = None`), so the fallback `len(text) // 4` always runs. -/
def count_tokens (text : String) : Int := (pyLen text / 4 : Nat)

/-- `TokenManager.estimate_response_tokens`. -/
def estimate_response_tokens (cfg : BotConfig) (prompt_tokens : Int)
    (context_length : Int) (prompt_type : String) : Int :=
  let base0 : Int :=
    if prompt_type = "express_analysis" then 300
    else if prompt_type = "full_analysis" then 800
    else if prompt_type = "psychology_consultation" then 200
    else if prompt_type = "career_consultation" then 400
    else if prompt_type = "self_esteem_analysis" then 600
    else 500
  let base1 : Int :=
    if prompt_tokens > 2000 then min (base0 + 200) 1000
    else if prompt_tokens < 500 then max (base0 - 100) 100
    else base0
  let base2 : Int :=
    if context_length > 10 then min (base1 + 150) 1000
    else if context_length < 3 then max (base1 - 50) 100
    else base1
  min base2 cfg.response_tokens

/-- `TokenManager._calculate_cost` for the `"gpt-4"` model (the only model
`optimize_prompt` passes); `int(x)` on a non-negative value is `floor`. -/
def calculate_cost (tokens : Int) : Rat :=
  let input_tokens : Int := ⌊(tokens : Rat) * (7 / 10)⌋
  let output_tokens : Int := ⌊(tokens : Rat) * (3 / 10)⌋
  (input_tokens : Rat) / 1000 * (3 / 100) + (output_tokens : Rat) / 1000 * (6 / 100)

/-- Keyword list of `TokenManager._compress_context`. -/
def compressKeyWords : List String :=
  ["важно", "проблема", "цель", "мечта", "страх", "тревога",
   "работа", "карьера", "отношения", "семья", "любовь", "деньги"]

/-- The `while` loop of `_compress_context`: while the text is over budget
and longer than 100 characters, replace it by its first `len - 100`
characters plus `"..."`.  Fuel-based so the kernel can evaluate; each
iteration shortens the text by 97 characters, so `len` fuel suffices. -/
def compressWhile (max_tokens : Int) : Nat → String → String
  | 0, s => s
  | f + 1, s =>
    if count_tokens s > max_tokens ∧ pyLen s > 100 then
      compressWhile max_tokens f (pyDropRight s 100 ++ "...")
    else s

/-- `TokenManager._compress_context`. -/
def compress_context (context : String) (max_tokens : Int) : String :=
  if count_tokens context ≤ max_tokens then context
  else
    let sentences := pySplit context ". "
    let important0 := pyLastN sentences 3
    let important :=
      (pyDropLastN sentences 3).foldl
        (fun acc sentence =>
          if compressKeyWords.any (fun w => pyContains (pyLower sentence) w) then
            pyInsert acc (-3) sentence
          else acc)
        important0
    let compressed := pyJoin ". " important
    compressWhile max_tokens (pyLen compressed) compressed

/-- `len(context.split('\n')) if context else 0` in `optimize_prompt`. -/
def conversation_length_of (context : String) : Int :=
  if context = "" then 0 else ((pySplit context "\n").length : Nat)

/-- `TokenManager.optimize_prompt` (processing-time metadata omitted). -/
def optimize_prompt (cfg : BotConfig) (prompt context : String)
    (user_type : String) (prompt_type : String) :
    String × String × TokenUsage :=
  let prompt_tokens := count_tokens prompt
  let context_tokens := count_tokens context
  let conversation_length := conversation_length_of context
  let max_tokens := getAdaptiveLimitsMaxTokens cfg conversation_length user_type
  let available_for_prompt := max_tokens - cfg.response_tokens
  if prompt_tokens + context_tokens ≤ available_for_prompt then
    let total_tokens := prompt_tokens + context_tokens
    let est := estimate_response_tokens cfg prompt_tokens conversation_length prompt_type
    (prompt, context,
      { prompt_tokens := prompt_tokens
        completion_tokens := est
        total_tokens := total_tokens + est
        estimated_cost := calculate_cost (total_tokens + est) })
  else
    let max_context_tokens0 := available_for_prompt - prompt_tokens
    let max_context_tokens :=
      if max_context_tokens0 ≤ 0 then cfg.min_tokens else max_context_tokens0
    let compressed_context := compress_context context max_context_tokens
    let final_tokens := prompt_tokens + count_tokens compressed_context
    let est := estimate_response_tokens cfg prompt_tokens conversation_length prompt_type
    (prompt, compressed_context,
      { prompt_tokens := prompt_tokens
        completion_tokens := est
        total_tokens := final_tokens + est
        estimated_cost := calculate_cost (final_tokens + est) })

/-- `TokenManager.is_response_truncated` (`src/core/token_manager.py`):
`any` over the eight indicator expressions, in source order. -/
def is_response_truncated (response : String) : Bool :=
  pyEndsWith response "..." ∨
  pyEndsWith response "…" ∨
  ¬ pyEndsWith response "." ∨
  ¬ pyEndsWith response "!" ∨
  ¬ pyEndsWith response "?" ∨
  (pySplitWs response).length < 10 ∨
  pyContains (pyLower response) "продолжение следует" ∨
  pyContains (pyLower response) "to be continued"

end Core

/-- `TokenManager.is_response_truncated` from the earlier variant
(`src/ai/token_manager.py`): six indicators (the first two are the same
expression `response.endswith('...')` twice). -/
def aiIsResponseTruncated (response : String) : Bool :=
  pyEndsWith response "..." ∨
  pyEndsWith response "..." ∨
  ¬ pyEndsWith response "." ∨
  ¬ pyEndsWith response "!" ∨
  ¬ pyEndsWith response "?" ∨
  (pySplitWs response).length < 10

namespace Core

/-- `TokenManager._split_long_paragraph`: greedy packing of `'. '`-separated
sentences; a sentence that does not fit is flushed and becomes the new
accumulator even if it alone exceeds `max_length` (no hard character cut). -/
def splitParagraphAux (max_length : Int) :
    List String → List String → String → List String
  | [], parts, current =>
    parts ++ (if current = "" then [] else [pyStrip current])
  | sentence :: rest, parts, current =>
    if (pyLen current : Int) + pyLen sentence ≤ max_length then
      splitParagraphAux max_length rest parts
        (if current = "" then sentence else current ++ ". " ++ sentence)
    else
      splitParagraphAux max_length rest
        (parts ++ (if current = "" then [] else [pyStrip current])) sentence

/-- `TokenManager._split_long_paragraph`. -/
def split_long_paragraph (paragraph : String) (max_length : Int) : List String :=
  splitParagraphAux max_length (pySplit paragraph ". ") [] ""

/-- `TokenManager.split_long_response` main loop over `'\n\n'`-separated
paragraphs.  `none` models the `IndexError` the Python code raises when an
over-long paragraph yields no sub-parts (`sub_parts[-1]` on an empty list,
reachable e.g. for a paragraph consisting only of `'. '` separators). -/
def splitResponseAux (max_length : Int) :
    List String → List String → String → Option (List String)
  | [], parts, current =>
    some (parts ++ (if current = "" then [] else [pyStrip current]))
  | paragraph :: rest, parts, current =>
    if (pyLen current : Int) + pyLen paragraph ≤ max_length then
      splitResponseAux max_length rest parts
        (if current = "" then paragraph else current ++ "\n\n" ++ paragraph)
    else
      let parts' := parts ++ (if current = "" then [] else [pyStrip current])
      if (pyLen paragraph : Int) > max_length then
        let sub_parts := split_long_paragraph paragraph max_length
        match sub_parts.getLast? with
        | none => none
        | some last => splitResponseAux max_length rest (parts' ++ sub_parts.dropLast) last
      else
        splitResponseAux max_length rest parts' paragraph

/-- `TokenManager.split_long_response` (with an explicit `max_length`;
the Python default is `config.max_message_length`). -/
def split_long_response (response : String) (max_length : Int) :
    Option (List String) :=
  if (pyLen response : Int) ≤ max_length then some [response]
  else splitResponseAux max_length (pySplit response "\n\n") [] ""

end Core

/-! ## `src/core/context_compressor.py` (`ContextCompressor`) -/

namespace Compressor

/-- The `Message` dataclass. -/
structure Msg where
  text : String
  importance : Rat
  timestamp : String
  user_id : Int := 0
  deriving DecidableEq, Repr

/-- `importance_keywords` tiers with their weights from
`_calculate_importance` (`{'high': 0.5, 'medium': 0.3, 'low': 0.1}`). -/
def importanceKeywords : List (Rat × List String) :=
  [(1/2, ["важно", "проблема", "цель", "мечта", "страх", "тревога", "кризис", "срочно"]),
   (3/10, ["работа", "карьера", "отношения", "семья", "деньги", "здоровье"]),
   (1/10, ["привет", "спасибо", "хорошо", "понятно", "да", "нет"])]

/-- The literal stems of the eight `key_patterns` regexes
(`r'я хочу (.+)'` etc.): each matches iff the stem occurs followed by at
least one non-newline character. -/
def keyPatternStems : List String :=
  ["я хочу ", "моя цель ", "моя проблема ", "я боюсь ",
   "я мечтаю ", "я работаю ", "я изучаю ", "я планирую "]

/-- `re.search(stem + '(.+)', text)` for a literal `stem`: some occurrence
of `stem` is followed by at least one character other than `'\n'`. -/
def regexStemPlus (stem : List Char) : List Char → Bool
  | [] => false
  | c :: rest =>
    (stem.isPrefixOf (c :: rest) ∧ (List.drop stem.length (c :: rest)).any (· ≠ '\n'))
      || regexStemPlus stem rest

/-- `ContextCompressor._check_key_patterns`. -/
def check_key_patterns (text : String) : Rat :=
  let pattern_matches :=
    (keyPatternStems.filter fun p => regexStemPlus p.data text.data).length
  min ((pattern_matches : Rat) / 8) 1

/-- `ContextCompressor._calculate_importance`. -/
def calculate_importance (text : String) (position total : Nat) : Rat :=
  let text_lower := pyLower text
  let positionPart := ((position : Rat) + 1) / (total : Rat) * (3/10)
  let keywordPart := importanceKeywords.foldl
    (fun acc wk =>
      acc + ((wk.2.filter fun k => pyContains text_lower k).length : Rat) * wk.1)
    0
  let lengthPart := min ((pyLen text : Rat) / 200) 1 * (1/5)
  let patternPart := check_key_patterns text_lower * (3/10)
  min (positionPart + keywordPart + lengthPart + patternPart) 1

/-- `ContextCompressor._analyze_messages`. -/
def analyze_messages (messages : List String) : List Msg :=
  messages.mapIdx fun i text =>
    { text := text
      importance := calculate_importance text i messages.length
      timestamp := "msg_" ++ pyStrNat (i + 1) }

/-- `ContextCompressor._prioritize_messages`: Python's stable `sorted` with
`reverse=True` on the importance key. -/
def prioritize_messages (messages : List Msg) : List Msg :=
  messages.mergeSort fun a b => b.importance ≤ a.importance

/-- `ContextCompressor._count_tokens` (`len(text) // 4`). -/
def count_tokensC (text : String) : Int := (pyLen text / 4 : Nat)

/-- The word loop of `_truncate_text`: accept words while the running
character count (word lengths plus one separator each) stays within
`max_chars`; the Python `else: break` stops at the first word that does
not fit. -/
def truncWords (max_chars : Int) : List String → Int → List String
  | [], _ => []
  | word :: rest, current_length =>
    if current_length + (pyLen word : Int) + 1 ≤ max_chars then
      word :: truncWords max_chars rest (current_length + pyLen word + 1)
    else []

/-- `ContextCompressor._truncate_text`: word-greedy truncation to
`max_tokens * 4` characters. -/
def truncate_text (text : String) (max_tokens : Int) : String :=
  let max_chars := max_tokens * 4
  if (pyLen text : Int) ≤ max_chars then text
  else pyJoin " " (truncWords max_chars (pySplitWs text) 0)

/-- `ContextCompressor._select_messages`: greedily accept prioritized
messages while under budget; on the first overflow, append a truncated
version if more than 50 tokens remain, then stop. -/
def selectAux (max_tokens : Int) : List Msg → Int → List Msg
  | [], _ => []
  | message :: rest, current_tokens =>
    let message_tokens := count_tokensC message.text
    if current_tokens + message_tokens ≤ max_tokens then
      message :: selectAux max_tokens rest (current_tokens + message_tokens)
    else
      let remaining_tokens := max_tokens - current_tokens
      if remaining_tokens > 50 then
        [{ text := truncate_text message.text remaining_tokens ++ "..."
           importance := message.importance
           timestamp := message.timestamp }]
      else []

/-- `ContextCompressor._select_messages`. -/
def select_messages (prioritized : List Msg) (max_tokens : Int) : List Msg :=
  selectAux max_tokens prioritized 0

/-- `ContextCompressor._create_compressed_context`. -/
def create_compressed_context (selected all_messages : List Msg) : String :=
  if selected = [] then "Контекст недоступен"
  else
    let header :=
      if selected.length < all_messages.length then
        ["[Сжатый контекст из " ++ pyStrNat all_messages.length ++ " сообщений]", ""]
      else []
    pyJoin "\n" (header ++ selected.map fun m => "Сообщение: " ++ m.text)

/-- `ContextCompressor._format_messages` (1-based enumeration). -/
def format_messages (messages : List Msg) : String :=
  pyJoin "\n" (messages.mapIdx fun i m =>
    "Сообщение " ++ pyStrNat (i + 1) ++ ": " ++ m.text)

/-- `ContextCompressor.compress_conversation`. -/
def compress_conversation (messages : List String) (max_tokens : Int) : String :=
  if messages = [] then ""
  else
    let analyzed := analyze_messages messages
    let total_tokens := (analyzed.map fun m => count_tokensC m.text).sum
    if total_tokens ≤ max_tokens then format_messages analyzed
    else
      let prioritized := prioritize_messages analyzed
      let selected := select_messages prioritized max_tokens
      create_compressed_context selected analyzed

end Compressor

/-! ## MD5 (`hashlib.md5(...).hexdigest()`)

A direct implementation of RFC 1321 over byte lists, with 32-bit words as
naturals reduced mod `2^32`.  All recursions are structural (fuel-based
where needed) so that the kernel can evaluate digests of concrete strings. -/

/-- Bitwise complement on a 32-bit word. -/
def not32 (a : Nat) : Nat := 4294967295 - a

/-- 32-bit left rotation (for `0 < s < 32` and `a < 2^32`). -/
def rotl32 (a s : Nat) : Nat := ((a <<< s) ||| (a >>> (32 - s))) % 4294967296

/-- The 64 MD5 sine-derived constants `K[i]`. -/
def md5K : List Nat :=
  [0xd76aa478, 0xe8c7b756, 0x242070db, 0xc1bdceee,
   0xf57c0faf, 0x4787c62a, 0xa8304613, 0xfd469501,
   0x698098d8, 0x8b44f7af, 0xffff5bb1, 0x895cd7be,
   0x6b901122, 0xfd987193, 0xa679438e, 0x49b40821,
   0xf61e2562, 0xc040b340, 0x265e5a51, 0xe9b6c7aa,
   0xd62f105d, 0x02441453, 0xd8a1e681, 0xe7d3fbc8,
   0x21e1cde6, 0xc33707d6, 0xf4d50d87, 0x455a14ed,
   0xa9e3e905, 0xfcefa3f8, 0x676f02d9, 0x8d2a4c8a,
   0xfffa3942, 0x8771f681, 0x6d9d6122, 0xfde5380c,
   0xa4beea44, 0x4bdecfa9, 0xf6bb4b60, 0xbebfbc70,
   0x289b7ec6, 0xeaa127fa, 0xd4ef3085, 0x04881d05,
   0xd9d4d039, 0xe6db99e5, 0x1fa27cf8, 0xc4ac5665,
   0xf4292244, 0x432aff97, 0xab9423a7, 0xfc93a039,
   0x655b59c3, 0x8f0ccc92, 0xffeff47d, 0x85845dd1,
   0x6fa87e4f, 0xfe2ce6e0, 0xa3014314, 0x4e0811a1,
   0xf7537e82, 0xbd3af235, 0x2ad7d2bb, 0xeb86d391]

/-- The 64 MD5 per-round shift amounts `s[i]`. -/
def md5S : List Nat :=
  [7, 12, 17, 22, 7, 12, 17, 22, 7, 12, 17, 22, 7, 12, 17, 22,
   5, 9, 14, 20, 5, 9, 14, 20, 5, 9, 14, 20, 5, 9, 14, 20,
   4, 11, 16, 23, 4, 11, 16, 23, 4, 11, 16, 23, 4, 11, 16, 23,
   6, 10, 15, 21, 6, 10, 15, 21, 6, 10, 15, 21, 6, 10, 15, 21]

/-- UTF-8 encoding of one code point (Python `str.encode()`). -/
def utf8Char (c : Char) : List Nat :=
  let n := c.toNat
  if n < 0x80 then [n]
  else if n < 0x800 then
    [0xC0 ||| (n >>> 6), 0x80 ||| (n &&& 0x3F)]
  else if n < 0x10000 then
    [0xE0 ||| (n >>> 12), 0x80 ||| ((n >>> 6) &&& 0x3F), 0x80 ||| (n &&& 0x3F)]
  else
    [0xF0 ||| (n >>> 18), 0x80 ||| ((n >>> 12) &&& 0x3F),
     0x80 ||| ((n >>> 6) &&& 0x3F), 0x80 ||| (n &&& 0x3F)]

/-- Python `s.encode()` (UTF-8 byte sequence). -/
def utf8Bytes (s : String) : List Nat :=
  s.data.foldr (fun c acc => utf8Char c ++ acc) []

/-- The eight little-endian bytes of the 64-bit message bit length. -/
def le64Bytes (n : Nat) : List Nat :=
  [(n >>> 0) % 256, (n >>> 8) % 256, (n >>> 16) % 256, (n >>> 24) % 256,
   (n >>> 32) % 256, (n >>> 40) % 256, (n >>> 48) % 256, (n >>> 56) % 256]

/-- MD5 padding: `0x80`, zeros to 56 mod 64, then the bit length. -/
def md5Pad (msg : List Nat) : List Nat :=
  let padLen := (120 - ((msg.length + 1) % 64)) % 64
  msg ++ 0x80 :: List.replicate padLen 0 ++ le64Bytes ((msg.length * 8) % 2 ^ 64)

/-- Split into 64-byte blocks (fuel-based; the list length is enough fuel). -/
def chunks64Aux : Nat → List Nat → List (List Nat)
  | _, [] => []
  | 0, l => [l]
  | f + 1, b :: rest => ((b :: rest).take 64) :: chunks64Aux f ((b :: rest).drop 64)

/-- Split a padded message into its 64-byte blocks. -/
def chunks64 (l : List Nat) : List (List Nat) := chunks64Aux l.length l

/-- Word `M[g]` of a block: four bytes, little-endian. -/
def blockWord (block : List Nat) (g : Nat) : Nat :=
  block.getD (4 * g) 0 + 256 * block.getD (4 * g + 1) 0 +
    65536 * block.getD (4 * g + 2) 0 + 16777216 * block.getD (4 * g + 3) 0

/-- One of the 64 MD5 rounds. -/
def md5Step (block : List Nat) (st : Nat × Nat × Nat × Nat) (i : Nat) :
    Nat × Nat × Nat × Nat :=
  let (a, b, c, d) := st
  let fg : Nat × Nat :=
    if i < 16 then ((b &&& c) ||| (not32 b &&& d), i)
    else if i < 32 then ((d &&& b) ||| (not32 d &&& c), (5 * i + 1) % 16)
    else if i < 48 then (b ^^^ c ^^^ d, (3 * i + 5) % 16)
    else (c ^^^ (b ||| not32 d), (7 * i) % 16)
  let f := (fg.1 + a + md5K.getD i 0 + blockWord block fg.2) % 4294967296
  (d, (b + rotl32 f (md5S.getD i 0)) % 4294967296, b, c)

/-- Process one 64-byte block. -/
def md5Block (st : Nat × Nat × Nat × Nat) (block : List Nat) :
    Nat × Nat × Nat × Nat :=
  let (a0, b0, c0, d0) := st
  let r := (List.range 64).foldl (md5Step block) (a0, b0, c0, d0)
  ((a0 + r.1) % 4294967296, (b0 + r.2.1) % 4294967296,
   (c0 + r.2.2.1) % 4294967296, (d0 + r.2.2.2) % 4294967296)

/-- The four little-endian bytes of a 32-bit word. -/
def le32Bytes (n : Nat) : List Nat :=
  [n % 256, (n >>> 8) % 256, (n >>> 16) % 256, (n >>> 24) % 256]

/-- The 16 digest bytes of a byte message. -/
def md5DigestBytes (msg : List Nat) : List Nat :=
  let st := (chunks64 (md5Pad msg)).foldl md5Block
    (0x67452301, 0xefcdab89, 0x98badcfe, 0x10325476)
  le32Bytes st.1 ++ le32Bytes st.2.1 ++ le32Bytes st.2.2.1 ++ le32Bytes st.2.2.2

/-- Two lowercase hex characters of a byte. -/
def byteHexChars (b : Nat) : List Char :=
  [Nat.digitChar (b / 16), Nat.digitChar (b % 16)]

/-- `hashlib.md5(s.encode()).hexdigest()`. -/
def md5HexOfString (s : String) : String :=
  ⟨(md5DigestBytes (utf8Bytes s)).foldr (fun b acc => byteHexChars b ++ acc) []⟩

/-! ## `src/ai/response_cache.py` (`ResponseCache`) -/

namespace Cache

/-- The `CachedResponse` dataclass (`timestamp` in integer seconds;
`metadata` as a string association list). -/
structure CachedResponse where
  response : String
  timestamp : Int
  hit_count : Int := 0
  user_id : Int := 0
  prompt_hash : String := ""
  metadata : List (String × String) := []
  deriving DecidableEq, Repr

/-- Cache hit/miss counters. -/
structure CacheStats where
  hits : Int := 0
  misses : Int := 0
  evictions : Int := 0
  total_requests : Int := 0
  deriving DecidableEq, Repr

/-- The `OrderedDict` store: key/value pairs in insertion-to-recency order
(head = least recently used), plus the statistics counters. -/
structure CacheState where
  entries : List (String × CachedResponse) := []
  stats : CacheStats := {}
  deriving DecidableEq, Repr

/-- The empty cache. -/
def emptyCache : CacheState := {}

/-- The argument string of the key hash:
`f"{prompt}|{user_id}|{context}"`. -/
def cache_content (prompt : String) (user_id : Int) (context : String) : String :=
  prompt ++ "|" ++ pyStrInt user_id ++ "|" ++ context

/-- `ResponseCache._generate_cache_key`. -/
def generate_cache_key (prompt : String) (user_id : Int) (context : String) :
    String :=
  md5HexOfString (cache_content prompt user_id context)

/-- `ResponseCache.ttl_settings` lookup with fallback to the default TTL
(both the `'default'` entry and the `.get` fallback are `config.cache_ttl`). -/
def ttl_settings (cfg : BotConfig) (response_type : String) : Int :=
  if response_type = "express_analysis" then 3600
  else if response_type = "full_analysis" then 7200
  else if response_type = "psychology_consultation" then 1800
  else if response_type = "career_consultation" then 3600
  else cfg.cache_ttl

/-- `ResponseCache._is_expired`. -/
def is_expired (cr : CachedResponse) (ttl : Int) (now : Int) : Bool :=
  now - cr.timestamp > ttl

/-- `OrderedDict` lookup. -/
def dictFind (entries : List (String × CachedResponse)) (key : String) :
    Option CachedResponse :=
  (entries.find? fun e => e.1 = key).map (·.2)

/-- `del cache[key]`. -/
def dictDelete (entries : List (String × CachedResponse)) (key : String) :
    List (String × CachedResponse) :=
  entries.filter fun e => ¬ e.1 = key

/-- `ResponseCache.get`: returns the hit (if any) and the updated state. -/
def cache_get (cfg : BotConfig) (st : CacheState) (prompt : String)
    (user_id : Int) (context : String) (response_type : String) (now : Int) :
    Option String × CacheState :=
  let stats0 := { st.stats with total_requests := st.stats.total_requests + 1 }
  let cache_key := generate_cache_key prompt user_id context
  match dictFind st.entries cache_key with
  | none =>
    (none, { st with stats := { stats0 with misses := stats0.misses + 1 } })
  | some cached_response =>
    let ttl := ttl_settings cfg response_type
    if is_expired cached_response ttl now then
      (none,
       { entries := dictDelete st.entries cache_key
         stats := { stats0 with misses := stats0.misses + 1 } })
    else
      let updated := { cached_response with hit_count := cached_response.hit_count + 1 }
      (some cached_response.response,
       { entries := dictDelete st.entries cache_key ++ [(cache_key, updated)]
         stats := { stats0 with hits := stats0.hits + 1 } })

/-- `ResponseCache._evict_oldest`: remove the first (least recently used)
entry, if any. -/
def evict_oldest (st : CacheState) : CacheState :=
  match st.entries with
  | [] => st
  | _ :: rest =>
    { entries := rest
      stats := { st.stats with evictions := st.stats.evictions + 1 } }

/-- The `CachedResponse` record `put` constructs before the
hit-count-preserving overwrite check. -/
def fresh_entry (response : String) (user_id : Int) (cache_key : String)
    (metadata : List (String × String)) (now : Int) : CachedResponse :=
  { response := response
    timestamp := now
    user_id := user_id
    prompt_hash := cache_key
    metadata := metadata }

/-- `ResponseCache.put`: insert or overwrite (preserving `hit_count` and
dict position on overwrite, appending at the most-recently-used end when
new), then evict the oldest entry if the store exceeds capacity. -/
def cache_put (cfg : BotConfig) (st : CacheState) (prompt response : String)
    (user_id : Int) (context : String) (response_type : String)
    (metadata : List (String × String)) (now : Int) : String × CacheState :=
  let cache_key := generate_cache_key prompt user_id context
  let base := fresh_entry response user_id cache_key metadata now
  let cached_response :=
    match dictFind st.entries cache_key with
    | some existing => { base with hit_count := existing.hit_count }
    | none => base
  let entries' :=
    if (dictFind st.entries cache_key).isSome then
      st.entries.map fun e => if e.1 = cache_key then (cache_key, cached_response) else e
    else
      st.entries ++ [(cache_key, cached_response)]
  let st' : CacheState := { st with entries := entries' }
  let st'' := if (entries'.length : Int) > cfg.cache_size then evict_oldest st' else st'
  (cache_key, st'')

/-- The keys currently stored, least recently used first. -/
def cacheKeys (st : CacheState) : List String := st.entries.map (·.1)

end Cache

/-! ## `src/ai/token_monitor.py` (`TokenMonitor`)

Per-user state is a dict `user_id -> UserPatterns`; `track_request` touches
only the entry of the tracked user (creating it with the dataclass defaults
on first sight), so the model follows one user's pattern together with the
system-wide counters. -/

namespace Monitor

/-- The `UserPatterns` dataclass. -/
structure UserPatterns where
  user_id : Int
  preferred_prompt_length : String := "medium"
  preferred_style : String := "balanced"
  avg_conversation_length : Int := 0
  avg_response_length : Rat := 0
  truncation_rate : Rat := 0
  satisfaction_score : Rat := 0
  last_optimization : Int := 0
  deriving DecidableEq, Repr

/-- The system-wide `TokenUsageStats` counters (the fields
`track_request` updates). -/
structure UsageStats where
  total_tokens : Int := 0
  total_requests : Int := 0
  truncated_responses : Int := 0
  avg_tokens_per_request : Rat := 0
  deriving DecidableEq, Repr

/-- Monitor state: system counters plus the tracked user's pattern. -/
structure MonitorState where
  usage_stats : UsageStats := {}
  pattern : UserPatterns
  deriving DecidableEq, Repr

/-- A fresh `UserPatterns(user_id=user_id)` whose `last_optimization`
defaults to the creation instant. -/
def newUserPatterns (user_id : Int) (now : Int) : UserPatterns :=
  { user_id := user_id, last_optimization := now }

/-- The auto-applicability and type of each entry of
`get_optimization_suggestions`, in source order. -/
def suggestion_types (stats : UsageStats) (p : UserPatterns) : List (String × Bool) :=
  (if p.truncation_rate > 1/5 then [("prompt_length", true)] else []) ++
  (if p.avg_response_length < 200 then [("response_expansion", false)] else []) ++
  (if p.satisfaction_score > 0 ∧ p.satisfaction_score < 3 then
    [("style_adaptation", true)] else []) ++
  (if (stats.truncated_responses : Rat) / (max stats.total_requests 1 : Int) > 3/20 then
    [("global_optimization", true)] else [])

/-- `TokenMonitor._apply_optimization`: the pattern-field effect of one
suggestion (other types change nothing and report failure). -/
def apply_optimization (p : UserPatterns) (stype : String) : UserPatterns :=
  if stype = "prompt_length" then
    if p.preferred_prompt_length = "long" then
      { p with preferred_prompt_length := "medium" }
    else if p.preferred_prompt_length = "medium" then
      { p with preferred_prompt_length := "short" }
    else p
  else if stype = "style_adaptation" then
    if p.satisfaction_score < 3 then { p with preferred_style := "detailed" }
    else { p with preferred_style := "concise" }
  else p

/-- `TokenMonitor.auto_optimize_user`: apply each auto-applicable
suggestion in order, then stamp `last_optimization`. -/
def auto_optimize_user (stats : UsageStats) (p : UserPatterns) (now : Int) :
    UserPatterns :=
  let applied := (suggestion_types stats p).foldl
    (fun q s => if s.2 then apply_optimization q s.1 else q) p
  { applied with last_optimization := now }

/-- `TokenMonitor._check_optimization_needed` (30-minute cool-down). -/
def check_optimization_needed (stats : UsageStats) (p : UserPatterns)
    (now : Int) : UserPatterns :=
  if now - p.last_optimization < 1800 then p
  else if p.truncation_rate > 1/5 ∨
      (p.satisfaction_score > 0 ∧ p.satisfaction_score < 3) ∨
      p.avg_response_length < 100 then
    auto_optimize_user stats p now
  else p

/-- One `track_request` call's arguments. -/
structure TrackInput where
  prompt_tokens : Int
  response_tokens : Int
  response_length : Int
  truncated : Bool := false
  satisfaction : Option Rat := none
  now : Int := 0
  deriving DecidableEq, Repr

/-- The `avg_response_length` EMA block of `track_request`. -/
def update_avg (p : UserPatterns) (response_length : Int) : UserPatterns :=
  if p.avg_response_length = 0 then
    { p with avg_response_length := (response_length : Rat) }
  else
    { p with avg_response_length :=
        p.avg_response_length * (4/5) + (response_length : Rat) * (1/5) }

/-- The `truncation_rate` block of `track_request`: nudged by `+0.1`
(clamped to 1) on a truncated response, by `-0.05` (clamped to 0)
otherwise. -/
def update_rate (p : UserPatterns) (truncated : Bool) : UserPatterns :=
  if truncated then
    { p with truncation_rate := min (p.truncation_rate + 1/10) 1 }
  else
    { p with truncation_rate := max (p.truncation_rate - 1/20) 0 }

/-- The `satisfaction_score` block of `track_request`: first sample is
stored as-is, later samples via the 0.7/0.3 EMA — with no clamping. -/
def update_satisfaction (p : UserPatterns) (satisfaction : Option Rat) :
    UserPatterns :=
  match satisfaction with
  | none => p
  | some s =>
    if p.satisfaction_score = 0 then { p with satisfaction_score := s }
    else
      { p with satisfaction_score :=
          p.satisfaction_score * (7/10) + s * (3/10) }

/-- `TokenMonitor.track_request` for the tracked user. -/
def track_request (st : MonitorState) (inp : TrackInput) : MonitorState :=
  let stats0 := st.usage_stats
  let total_tokens := stats0.total_tokens + inp.prompt_tokens + inp.response_tokens
  let total_requests := stats0.total_requests + 1
  let stats : UsageStats :=
    { total_tokens := total_tokens
      total_requests := total_requests
      truncated_responses :=
        stats0.truncated_responses + (if inp.truncated then 1 else 0)
      avg_tokens_per_request := (total_tokens : Rat) / (total_requests : Rat) }
  let p3 := update_satisfaction
    (update_rate (update_avg st.pattern inp.response_length) inp.truncated)
    inp.satisfaction
  { usage_stats := stats, pattern := check_optimization_needed stats p3 inp.now }

/-- A whole history: fold `track_request` over a list of calls, starting
from the lazily created pattern. -/
def track_all (user_id : Int) (created : Int) (inputs : List TrackInput) :
    MonitorState :=
  inputs.foldl track_request
    { usage_stats := {}, pattern := newUserPatterns user_id created }

end Monitor

/-! ## Derived definitions used by the verification statements -/

namespace Core

/-- The minimum-context-degradation path of `optimize_prompt`: prompt and
context together are over budget and the remaining context allowance
`available_for_prompt - prompt_tokens` is non-positive, so the code falls
back to `config.min_tokens`. -/
def min_context_path (cfg : BotConfig) (prompt context : String)
    (user_type : String) : Prop :=
  count_tokens prompt + count_tokens context >
    getAdaptiveLimitsMaxTokens cfg (conversation_length_of context) user_type -
      cfg.response_tokens ∧
  getAdaptiveLimitsMaxTokens cfg (conversation_length_of context) user_type -
      cfg.response_tokens - count_tokens prompt ≤ 0

instance (cfg : BotConfig) (prompt context user_type : String) :
    Decidable (min_context_path cfg prompt context user_type) := by
  unfold min_context_path
  infer_instance

/-- All `'. '`-separated sentences of all `'\n\n'`-separated paragraphs of a
response: the atomic units `split_long_response` never cuts below. -/
def sentence_units (response : String) : List String :=
  (pySplit response "\n\n").flatMap fun para => pySplit para ". "

/-- Length of the longest sentence unit. -/
def max_unit_len (response : String) : Nat :=
  ((sentence_units response).map pyLen).foldr max 0

end Core

namespace Compressor

/-- The message texts `compress_conversation` incorporates into its output
(the full list when everything fits, otherwise the greedy selection,
including the possible truncated tail ending in `"..."`). -/
def selected_texts (messages : List String) (max_tokens : Int) : List String :=
  if messages = [] then []
  else
    let analyzed := analyze_messages messages
    if ((analyzed.map fun m => count_tokensC m.text).sum) ≤ max_tokens then
      analyzed.map fun m => m.text
    else
      (select_messages (prioritize_messages analyzed) max_tokens).map fun m => m.text

end Compressor

/-- Capacity-1 configuration (for eviction instances). -/
def cfgCap1 : BotConfig := { defaultConfig with cache_size := 1 }

/-- Capacity-2 configuration (the spec's LRU scenario). -/
def cfgCap2 : BotConfig := { defaultConfig with cache_size := 2 }

/-- C2 counterexample prompt: 9904 characters = 2476 tokens. -/
def c2prompt : String := ⟨List.replicate 9904 'a'⟩

/-- C2 counterexample context: 16 newlines (17 conversation lines, putting
the adaptive budget in the long-conversation band) followed by 181 `'b'`s;
197 characters = 49 tokens. -/
def c2context : String := ⟨List.replicate 16 '\n' ++ List.replicate 181 'b'⟩

/-- C9 counterexample prompt: 200 characters = 50 tokens. -/
def c9prompt : String := ⟨List.replicate 200 'a'⟩

/-- C9 counterexample context: 800 characters = 200 tokens, one line. -/
def c9context : String := ⟨List.replicate 800 'b'⟩

/-- C3 counterexample message: 207 characters = 51 tokens. -/
def c3message : String := ⟨List.replicate 207 'x'⟩

/-! ### Basic facts about the truncation classifier -/

/-- A string cannot end with two different single characters. -/
theorem not_suffix_pair (s : String) (a b : Char) (hab : a ≠ b) :
    ¬ (pyEndsWith s (String.mk [a]) ∧ pyEndsWith s (String.mk [b])) := by
  rintro ⟨ha, hb⟩
  rw [pyEndsWith, List.isSuffixOf_iff_suffix] at ha hb
  rcases ha with ⟨ta, hta⟩
  rcases hb with ⟨tb, htb⟩
  have h := hta.trans htb.symm
  rcases List.append_inj' h (by simp) with ⟨_, h2⟩
  simp at h2
  exact hab h2

/-- The eight OR'd indicators of `is_response_truncated` always contain a
true one: a string ends with at most one of `'.'`, `'!'`, `'?'`, so at
least two of the three negated `endswith` checks hold.  Hence the
classifier returns `true` on *every* input. -/
theorem is_response_truncated_const (response : String) :
    Core.is_response_truncated response = true := by
  simp only [Core.is_response_truncated, Bool.decide_or, Bool.or_eq_true,
    decide_eq_true_eq]
  by_cases h : pyEndsWith response "." = true
  · have := not_suffix_pair response '.' '!' (by decide)
    have h2 : ¬ pyEndsWith response "!" = true := fun hb => this ⟨h, hb⟩
    tauto
  · tauto

/-- Same for the `src/ai/token_manager.py` variant. -/
theorem aiIsResponseTruncated_const (response : String) :
    aiIsResponseTruncated response = true := by
  simp only [aiIsResponseTruncated, Bool.decide_or, Bool.or_eq_true,
    decide_eq_true_eq]
  by_cases h : pyEndsWith response "." = true
  · have := not_suffix_pair response '.' '!' (by decide)
    have h2 : ¬ pyEndsWith response "!" = true := fun hb => this ⟨h, hb⟩
    tauto
  · tauto

/-- A complete English sentence: ends with `'.'`, has 12 words, contains
no continuation marker.  The spec classifies it as *not* truncated. -/
def completeSentence : String :=
  "This is a fully complete sentence that contains twelve properly separated words."

/-- **C1**: the spec's truncation-heuristic monotonicity claim against the
code.  Any text ending in `"..."` is classified truncated (this half holds),
but the second half fails: `completeSentence` ends in `'.'`, has 12 ≥ 10
words and no continuation marker, yet *both* implementations classify it as
truncated, because the indicator list ORs `not endswith('.')`,
`not endswith('!')` and `not endswith('?')` — at most one of which can be
false — instead of their conjunction.  The classifier is constantly `true`. -/
theorem truncation_classifier_code_bug :
    (∀ r : String, pyEndsWith r "..." → Core.is_response_truncated r = true) ∧
    pyEndsWith completeSentence "." = true ∧
    (pySplitWs completeSentence).length = 12 ∧
    pyContains (pyLower completeSentence) "to be continued" = false ∧
    pyContains (pyLower completeSentence) "продолжение следует" = false ∧
    Core.is_response_truncated completeSentence = true ∧
    aiIsResponseTruncated completeSentence = true ∧
    (∀ r : String, Core.is_response_truncated r = true) :=
  ⟨fun r _ => is_response_truncated_const r,
   by decide, by decide, by decide, by decide,
   is_response_truncated_const completeSentence,
   aiIsResponseTruncated_const completeSentence,
   is_response_truncated_const⟩

/-! ### ResponseCache lemmas -/

namespace Cache

/-- All TTL classes are non-negative when the default TTL is. -/
theorem ttl_settings_nonneg (cfg : BotConfig) (httl : 0 ≤ cfg.cache_ttl)
    (response_type : String) : 0 ≤ ttl_settings cfg response_type := by
  unfold ttl_settings
  repeat' split
  all_goals omega

/-- A missing key means no pair of the store carries it. -/
theorem dictFind_eq_none_iff {l : List (String × CachedResponse)} {k : String} :
    dictFind l k = none ↔ ∀ e ∈ l, ¬ e.1 = k := by
  simp [dictFind, List.find?_eq_none]

/-- Appending a fresh key at the most-recently-used end makes it findable. -/
theorem dictFind_append_self {l : List (String × CachedResponse)} {k : String}
    {v : CachedResponse} (h : ∀ e ∈ l, ¬ e.1 = k) :
    dictFind (l ++ [(k, v)]) k = some v := by
  induction l with
  | nil => simp [dictFind, List.find?]
  | cons e t ih =>
    have he : ¬ e.1 = k := h e (by simp)
    simp only [List.cons_append, dictFind, List.find?]
    rw [show (decide (e.1 = k)) = false by simpa using he]
    exact ih fun x hx => h x (by simp [hx])

/-- In-place overwrite keeps the key findable with the new value. -/
theorem dictFind_replace {l : List (String × CachedResponse)} {k : String}
    {v : CachedResponse} (h : (dictFind l k).isSome) :
    dictFind (l.map fun e => if e.1 = k then (k, v) else e) k = some v := by
  induction l with
  | nil => simp [dictFind] at h
  | cons e t ih =>
    by_cases hek : e.1 = k
    · simp [dictFind, List.find?, hek]
    · simp only [List.map_cons, if_neg hek]
      simp only [dictFind, List.find?] at h ⊢
      rw [show (decide (e.1 = k)) = false by simpa using hek] at h ⊢
      exact ih h

/-- Shape of a `get` hit: the hit response is returned, the hit count is
bumped, and the entry moves to the most-recently-used end. -/
theorem cache_get_hit (cfg : BotConfig) (st : CacheState) (p : String)
    (u : Int) (c : String) (k : String) (now : Int) {cr : CachedResponse}
    (hfind : dictFind st.entries (generate_cache_key p u c) = some cr)
    (hexp : is_expired cr (ttl_settings cfg k) now = false) :
    (cache_get cfg st p u c k now).1 = some cr.response ∧
    (cache_get cfg st p u c k now).2.entries =
      dictDelete st.entries (generate_cache_key p u c) ++
        [(generate_cache_key p u c, { cr with hit_count := cr.hit_count + 1 })] := by
  simp [cache_get, hfind, hexp]

/-- Shape of a `put` of a key not currently stored. -/
theorem cache_put_fresh (cfg : BotConfig) (st : CacheState)
    (p r : String) (u : Int) (c : String) (k : String)
    (meta : List (String × String)) (now : Int)
    (hfind : dictFind st.entries (generate_cache_key p u c) = none) :
    (cache_put cfg st p r u c k meta now).2.entries =
      (if ((st.entries.length + 1 : Nat) : Int) > cfg.cache_size then
        (st.entries ++ [(generate_cache_key p u c,
          fresh_entry r u (generate_cache_key p u c) meta now)]).tail
      else
        st.entries ++ [(generate_cache_key p u c,
          fresh_entry r u (generate_cache_key p u c) meta now)]) := by
  simp only [cache_put, hfind, Option.isSome_none, Bool.false_eq_true, if_false]
  split
  · rename_i hgt
    rw [if_pos (by simpa using hgt)]
    rcases st.entries with _ | ⟨e, t⟩ <;> simp [evict_oldest]
  · rename_i hle
    rw [if_neg (by simpa using hle)]

/-- Shape of a `put` that overwrites an existing key: same key sequence,
the stored value replaced, hit count preserved. -/
theorem cache_put_overwrite (cfg : BotConfig) (st : CacheState)
    (p r : String) (u : Int) (c : String) (k : String)
    (meta : List (String × String)) (now : Int) {existing : CachedResponse}
    (hfind : dictFind st.entries (generate_cache_key p u c) = some existing)
    (hsize : (st.entries.length : Int) ≤ cfg.cache_size) :
    (cache_put cfg st p r u c k meta now).2.entries =
      st.entries.map fun e =>
        if e.1 = generate_cache_key p u c then
          (generate_cache_key p u c,
           { fresh_entry r u (generate_cache_key p u c) meta now with
               hit_count := existing.hit_count })
        else e := by
  simp only [cache_put, hfind, Option.isSome_some, if_true]
  rw [if_neg (by simp; omega)]

end Cache

/-- **C4**: cache round trip.  `put(p, r, u, c, k)` followed by an
immediate `get(p, u, c, k)` returns `r`, for any store within capacity, any
positive capacity and any non-negative configured TTLs — including a TTL of
zero, since at age `0` the expiry check `age > ttl` does not fire. -/
theorem cache_put_get_roundtrip (cfg : BotConfig) (st : Cache.CacheState)
    (prompt response : String) (user_id : Int) (context : String)
    (kind : String) (metadata : List (String × String)) (now : Int)
    (hcap : 1 ≤ cfg.cache_size) (httl : 0 ≤ cfg.cache_ttl)
    (hsize : (st.entries.length : Int) ≤ cfg.cache_size) :
    (Cache.cache_get cfg
        (Cache.cache_put cfg st prompt response user_id context kind metadata now).2
        prompt user_id context kind now).1 = some response := by
  set key := Cache.generate_cache_key prompt user_id context with hkey
  have hexp : ∀ hc : Int, Cache.is_expired
      { Cache.fresh_entry response user_id key metadata now with hit_count := hc }
      (Cache.ttl_settings cfg kind) now = false := by
    intro hc
    have := Cache.ttl_settings_nonneg cfg httl kind
    simp only [Cache.is_expired, Cache.fresh_entry]
    simp only [decide_eq_false_iff_not, not_lt]
    omega
  rcases hfind : Cache.dictFind st.entries key with _ | existing
  · -- fresh insert
    have hshape := Cache.cache_put_fresh cfg st prompt response user_id context
      kind metadata now hfind
    rw [← hkey] at hshape
    by_cases hgt : ((st.entries.length + 1 : Nat) : Int) > cfg.cache_size
    · rw [if_pos hgt] at hshape
      -- over capacity: the head (LRU) is evicted, the new entry survives
      rcases hst : st.entries with _ | ⟨e, t⟩
      · exfalso
        rw [hst] at hgt
        simp at hgt
        omega
      · rw [hst] at hshape
        simp only [List.cons_append, List.tail_cons] at hshape
        have hnone : ∀ x ∈ t, ¬ x.1 = key := by
          intro x hx
          have := Cache.dictFind_eq_none_iff.mp hfind
          exact this x (by rw [hst]; exact List.mem_cons_of_mem _ hx)
        have hget := Cache.cache_get_hit cfg
          (Cache.cache_put cfg st prompt response user_id context kind metadata now).2
          prompt user_id context kind now
          (by rw [← hkey, hshape]; exact Cache.dictFind_append_self hnone) (hexp 0)
        rw [← hkey] at hget
        exact hget.1
    · rw [if_neg hgt] at hshape
      have hnone := Cache.dictFind_eq_none_iff.mp hfind
      have hget := Cache.cache_get_hit cfg
        (Cache.cache_put cfg st prompt response user_id context kind metadata now).2
        prompt user_id context kind now
        (by rw [← hkey, hshape]; exact Cache.dictFind_append_self hnone) (hexp 0)
      rw [← hkey] at hget
      exact hget.1
  · -- overwrite in place
    have hshape := Cache.cache_put_overwrite cfg st prompt response user_id context
      kind metadata now hfind hsize
    rw [← hkey] at hshape
    have hsome : (Cache.dictFind st.entries key).isSome := by rw [hfind]; rfl
    have hget := Cache.cache_get_hit cfg
      (Cache.cache_put cfg st prompt response user_id context kind metadata now).2
      prompt user_id context kind now
      (by rw [← hkey, hshape]; exact Cache.dictFind_replace hsome)
      (hexp existing.hit_count)
    rw [← hkey] at hget
    exact hget.1

/-- Concrete instance of the C4 round trip: the spec's example 3. -/
theorem cache_put_get_roundtrip_witness :
    (1 : Int) ≤ defaultConfig.cache_size ∧
    (Cache.cache_get defaultConfig
        (Cache.cache_put defaultConfig Cache.emptyCache "analyze me" "result A"
          7 "" "express_analysis" [] 0).2
        "analyze me" 7 "" "express_analysis" 0).1 = some "result A" :=
  ⟨by decide,
   cache_put_get_roundtrip defaultConfig Cache.emptyCache "analyze me" "result A"
     7 "" "express_analysis" [] 0 (by decide) (by decide) (by decide)⟩

/-- **C10**: the response kind is not part of the cache key.  An entry
stored by `put` under kind `k_put` is served by `get` for *any* kind
`k_get` with the same `(prompt, user, context)`, and the TTL applied at
lookup is the one for `k_get` — concretely, starting from an empty cache,
the lookup succeeds exactly when the age `t' - t` does not exceed
`ttl_settings(k_get)`, with `k_put` playing no role at all. -/
theorem cache_kind_not_in_key (cfg : BotConfig) (prompt response : String)
    (user_id : Int) (context : String) (k_put k_get : String)
    (metadata : List (String × String)) (t t' : Int)
    (hcap : 1 ≤ cfg.cache_size) :
    (Cache.cache_get cfg
        (Cache.cache_put cfg Cache.emptyCache prompt response user_id context
          k_put metadata t).2
        prompt user_id context k_get t').1 =
      if Cache.ttl_settings cfg k_get < t' - t then none else some response := by
  set key := Cache.generate_cache_key prompt user_id context with hkey
  have hfind : Cache.dictFind Cache.emptyCache.entries key = none := by
    simp [Cache.emptyCache, Cache.dictFind]
  have hshape := Cache.cache_put_fresh cfg Cache.emptyCache prompt response
    user_id context k_put metadata t hfind
  rw [← hkey] at hshape
  rw [if_neg (by simp [Cache.emptyCache]; omega)] at hshape
  have hfind2 : Cache.dictFind
      (Cache.cache_put cfg Cache.emptyCache prompt response user_id context
        k_put metadata t).2.entries key =
      some (Cache.fresh_entry response user_id key metadata t) := by
    rw [hshape]
    simp [Cache.emptyCache, Cache.dictFind, List.find?]
  by_cases hexp : Cache.ttl_settings cfg k_get < t' - t
  · rw [if_pos hexp]
    have : Cache.is_expired (Cache.fresh_entry response user_id key metadata t)
        (Cache.ttl_settings cfg k_get) t' = true := by
      simp only [Cache.is_expired, Cache.fresh_entry]
      simp only [decide_eq_true_eq]
      omega
    simp [Cache.cache_get, ← hkey, hfind2, this]
  · rw [if_neg hexp]
    have : Cache.is_expired (Cache.fresh_entry response user_id key metadata t)
        (Cache.ttl_settings cfg k_get) t' = false := by
      simp only [Cache.is_expired, Cache.fresh_entry]
      simp only [decide_eq_false_iff_not, not_lt]
      omega
    have hget := Cache.cache_get_hit cfg
      (Cache.cache_put cfg Cache.emptyCache prompt response user_id context
        k_put metadata t).2
      prompt user_id context k_get t'
      (by rw [← hkey]; exact hfind2) this
    rw [← hkey] at hget
    exact hget.1

/-- Concrete instance of C10: stored under `full_analysis` (TTL 7200),
fetched 3601 seconds later under `express_analysis` (TTL 3600): the lookup
misses, although the stored kind's TTL has not elapsed; fetched at the same
instant under `psychology_consultation`, it hits. -/
theorem cache_kind_not_in_key_witness :
    (Cache.cache_get defaultConfig
        (Cache.cache_put defaultConfig Cache.emptyCache "analyze me" "result A"
          7 "" "full_analysis" [] 0).2
        "analyze me" 7 "" "express_analysis" 3601).1 = none ∧
    (Cache.cache_get defaultConfig
        (Cache.cache_put defaultConfig Cache.emptyCache "analyze me" "result A"
          7 "" "full_analysis" [] 0).2
        "analyze me" 7 "" "psychology_consultation" 0).1 = some "result A" ∧
    (3601 : Int) - 0 ≤ Cache.ttl_settings defaultConfig "full_analysis" := by
  refine ⟨?_, ?_, by decide⟩
  · rw [cache_kind_not_in_key defaultConfig "analyze me" "result A" 7 ""
      "full_analysis" "express_analysis" [] 0 3601 (by decide)]
    decide
  · rw [cache_kind_not_in_key defaultConfig "analyze me" "result A" 7 ""
      "full_analysis" "psychology_consultation" [] 0 0 (by decide)]
    decide

/-- Deleting a key commutes with projecting the key sequence. -/
theorem map_fst_dictDelete (key : String)
    (l : List (String × Cache.CachedResponse)) :
    (Cache.dictDelete l key).map Prod.fst =
      (l.map Prod.fst).filter fun s => ¬ s = key := by
  induction l with
  | nil => rfl
  | cons e tl ih =>
    by_cases he : e.1 = key <;>
      simp [Cache.dictDelete, List.filter_cons, he] at ih ⊢ <;>
      exact ih

/-- **C5**: LRU, not FIFO, eviction.  (i) A `put` of a fresh key into a
store at capacity evicts exactly the entry at the least-recently-used
front, leaving the remaining keys in order followed by the new key.
(ii) A successful `get` moves the hit entry to the most-recently-used end.
(iii) The spec's concrete scenario at capacity 2: `put A, put B, get A,
put C` leaves `A` and `C` retrievable and `B` evicted. -/
theorem cache_lru_eviction :
    (∀ (cfg : BotConfig) (st : Cache.CacheState) (p r : String) (u : Int)
        (c k : String) (meta : List (String × String)) (now : Int),
      1 ≤ cfg.cache_size →
      (st.entries.length : Int) = cfg.cache_size →
      Cache.dictFind st.entries (Cache.generate_cache_key p u c) = none →
      Cache.cacheKeys (Cache.cache_put cfg st p r u c k meta now).2 =
        (Cache.cacheKeys st).tail ++ [Cache.generate_cache_key p u c]) ∧
    (∀ (cfg : BotConfig) (st : Cache.CacheState) (p : String) (u : Int)
        (c k : String) (now : Int) (cr : Cache.CachedResponse),
      Cache.dictFind st.entries (Cache.generate_cache_key p u c) = some cr →
      Cache.is_expired cr (Cache.ttl_settings cfg k) now = false →
      (Cache.cache_get cfg st p u c k now).1 = some cr.response ∧
      Cache.cacheKeys (Cache.cache_get cfg st p u c k now).2 =
        ((Cache.cacheKeys st).filter
          fun s => ¬ s = Cache.generate_cache_key p u c) ++
          [Cache.generate_cache_key p u c]) ∧
    (let s1 := (Cache.cache_put cfgCap2 Cache.emptyCache "A" "resp A" 1 ""
        "default" [] 0).2
     let s2 := (Cache.cache_put cfgCap2 s1 "B" "resp B" 1 "" "default" [] 0).2
     let s3 := (Cache.cache_get cfgCap2 s2 "A" 1 "" "default" 0).2
     let s4 := (Cache.cache_put cfgCap2 s3 "C" "resp C" 1 "" "default" [] 0).2
     (Cache.cache_get cfgCap2 s4 "A" 1 "" "default" 0).1 = some "resp A" ∧
     (Cache.cache_get cfgCap2 s4 "C" 1 "" "default" 0).1 = some "resp C" ∧
     (Cache.cache_get cfgCap2 s4 "B" 1 "" "default" 0).1 = none ∧
     s4.entries.length = 2) := by
  refine ⟨?_, ?_, ?_⟩
  · intro cfg st p r u c k meta now hcap hsize hfind
    have hshape := Cache.cache_put_fresh cfg st p r u c k meta now hfind
    rw [if_pos (by omega)] at hshape
    rcases hst : st.entries with _ | ⟨e, tl⟩
    · exfalso
      rw [hst] at hsize
      simp at hsize
      omega
    · rw [hst] at hshape
      simp only [List.cons_append, List.tail_cons] at hshape
      simp [Cache.cacheKeys, hshape, hst]
  · intro cfg st p u c k now cr hfind hexp
    have hget := Cache.cache_get_hit cfg st p u c k now hfind hexp
    refine ⟨hget.1, ?_⟩
    rw [Cache.cacheKeys, hget.2]
    simp only [List.map_append, List.map_cons, List.map_nil]
    congr 1
    exact map_fst_dictDelete (Cache.generate_cache_key p u c) st.entries
  · refine ⟨?_, ?_, ?_, ?_⟩ <;> decide

/-- Concrete instance of the general C5 parts at capacity 1: a fresh `put`
into a full store drops the front key, and a `get` hit returns the stored
response while moving its key to the most-recently-used end. -/
theorem cache_lru_eviction_witness :
    Cache.cacheKeys (Cache.cache_put cfgCap1
        (Cache.cache_put cfgCap1 Cache.emptyCache "A" "resp A" 1 "" "default" [] 0).2
        "B" "resp B" 1 "" "default" [] 0).2 =
      (Cache.cacheKeys
        (Cache.cache_put cfgCap1 Cache.emptyCache "A" "resp A" 1 "" "default" [] 0).2).tail
        ++ [Cache.generate_cache_key "B" 1 ""] ∧
    (Cache.cache_get cfgCap1
        (Cache.cache_put cfgCap1 Cache.emptyCache "A" "resp A" 1 "" "default" [] 0).2
        "A" 1 "" "default" 5).1 =
      some (Cache.fresh_entry "resp A" 1 (Cache.generate_cache_key "A" 1 "") [] 0).response :=
  ⟨cache_lru_eviction.1 cfgCap1
      (Cache.cache_put cfgCap1 Cache.emptyCache "A" "resp A" 1 "" "default" [] 0).2
      "B" "resp B" 1 "" "default" [] 0 (by decide) (by decide) (by decide),
   (cache_lru_eviction.2.1 cfgCap1
      (Cache.cache_put cfgCap1 Cache.emptyCache "A" "resp A" 1 "" "default" [] 0).2
      "A" 1 "" "default" 5
      (Cache.fresh_entry "resp A" 1 (Cache.generate_cache_key "A" 1 "") [] 0)
      (by decide) (by decide)).1⟩

/-! ### Decimal printing lemmas (for the cache-key analysis) -/

/-- `natCharsAux` with enough fuel prints the base-10 digits, most
significant first. -/
theorem natCharsAux_eq_digits :
    ∀ f n, n ≤ f →
      natCharsAux f n = ((Nat.digits 10 n).map Nat.digitChar).reverse := by
  intro f
  induction f with
  | zero =>
    intro n h
    interval_cases n
    simp [natCharsAux]
  | succ f ih =>
    intro n h
    match n with
    | 0 => simp [natCharsAux]
    | m + 1 =>
      rw [natCharsAux, ih ((m + 1) / 10) (by omega)]
      rw [Nat.digits_def' (by norm_num : (1:ℕ) < 10) (Nat.succ_pos m)]
      simp

/-- `Nat.digitChar` is injective below 10. -/
theorem digitChar_inj_lt10 : ∀ a < 10, ∀ b < 10,
    Nat.digitChar a = Nat.digitChar b → a = b := by decide

/-- Digit characters are never `'|'`. -/
theorem digitChar_ne_pipe : ∀ a < 10, Nat.digitChar a ≠ '|' := by decide

/-- Digit characters are never `'-'`. -/
theorem digitChar_ne_dash : ∀ a < 10, Nat.digitChar a ≠ '-' := by decide

/-- Mapping `digitChar` over digit lists is injective. -/
theorem map_digitChar_inj : ∀ (l₁ l₂ : List Nat),
    (∀ x ∈ l₁, x < 10) → (∀ x ∈ l₂, x < 10) →
    l₁.map Nat.digitChar = l₂.map Nat.digitChar → l₁ = l₂ := by
  intro l₁
  induction l₁ with
  | nil => intro l₂ _ _ h; cases l₂ <;> simp_all
  | cons a t ih =>
    intro l₂ h₁ h₂ h
    cases l₂ with
    | nil => simp at h
    | cons b t₂ =>
      simp only [List.map_cons, List.cons.injEq] at h
      have ha := digitChar_inj_lt10 a (h₁ a (by simp)) b (h₂ b (by simp)) h.1
      subst ha
      rw [ih t₂ (fun x hx => h₁ x (by simp [hx])) (fun x hx => h₂ x (by simp [hx])) h.2]

/-- Every character of `pyStrNat n` is a digit character. -/
theorem pyStrNat_chars (n : Nat) :
    ∀ ch ∈ (pyStrNat n).data, ∃ d, d < 10 ∧ ch = Nat.digitChar d := by
  intro ch hch
  by_cases hn : n = 0
  · subst hn
    simp [pyStrNat] at hch
    exact ⟨0, by norm_num, by simpa using hch⟩
  · rw [pyStrNat, if_neg hn] at hch
    rw [show (⟨natCharsAux n n⟩ : String).data = natCharsAux n n from rfl,
      natCharsAux_eq_digits n n le_rfl] at hch
    rw [List.mem_reverse] at hch
    rcases List.mem_map.mp hch with ⟨d, hd, rfl⟩
    exact ⟨d, Nat.digits_lt_base (by norm_num) hd, rfl⟩

/-- `pyStrNat` is injective (decimal printing is faithful). -/
theorem pyStrNat_inj {m n : Nat} (h : pyStrNat m = pyStrNat n) : m = n := by
  by_cases hm : m = 0 <;> by_cases hn : n = 0
  · omega
  · exfalso
    rw [pyStrNat, pyStrNat, if_pos hm, if_neg hn] at h
    have hdata : ('0' :: [] : List Char) = natCharsAux n n := congrArg String.data h
    rw [natCharsAux_eq_digits n n le_rfl] at hdata
    have hmap : (Nat.digits 10 n).map Nat.digitChar = ['0'] := by
      have h' := congrArg List.reverse hdata
      simp only [List.reverse_reverse, List.reverse_cons, List.reverse_nil,
        List.nil_append] at h'
      exact h'.symm
    have hdig : Nat.digits 10 n = [0] := by
      apply map_digitChar_inj _ _ (fun x hx => Nat.digits_lt_base (by norm_num) hx)
        (by intro x hx; simp at hx; omega)
      rw [hmap]; decide
    have := Nat.ofDigits_digits 10 n
    rw [hdig] at this
    simp [Nat.ofDigits] at this
    exact hn this.symm
  · exfalso
    rw [pyStrNat, pyStrNat, if_neg hm, if_pos hn] at h
    have hdata : natCharsAux m m = ('0' :: [] : List Char) := congrArg String.data h
    rw [natCharsAux_eq_digits m m le_rfl] at hdata
    have hmap : (Nat.digits 10 m).map Nat.digitChar = ['0'] := by
      have h' := congrArg List.reverse hdata
      simp only [List.reverse_reverse, List.reverse_cons, List.reverse_nil,
        List.nil_append] at h'
      exact h'
    have hdig : Nat.digits 10 m = [0] := by
      apply map_digitChar_inj _ _ (fun x hx => Nat.digits_lt_base (by norm_num) hx)
        (by intro x hx; simp at hx; omega)
      rw [hmap]; decide
    have := Nat.ofDigits_digits 10 m
    rw [hdig] at this
    simp [Nat.ofDigits] at this
    exact hm this.symm
  · rw [pyStrNat, pyStrNat, if_neg hm, if_neg hn] at h
    have hdata : natCharsAux m m = natCharsAux n n := congrArg String.data h
    rw [natCharsAux_eq_digits m m le_rfl, natCharsAux_eq_digits n n le_rfl] at hdata
    have hmap := List.reverse_injective hdata
    have hdig := map_digitChar_inj _ _
      (fun x hx => Nat.digits_lt_base (by norm_num) hx)
      (fun x hx => Nat.digits_lt_base (by norm_num) hx) hmap
    have h₁ := Nat.ofDigits_digits 10 m
    have h₂ := Nat.ofDigits_digits 10 n
    rw [hdig] at h₁
    omega

/-- `pyStrNat` is never empty. -/
theorem pyStrNat_ne_nil (n : Nat) : (pyStrNat n).data ≠ [] := by
  by_cases hn : n = 0
  · subst hn; simp [pyStrNat]
  · rw [pyStrNat, if_neg hn]
    show natCharsAux n n ≠ []
    rw [natCharsAux_eq_digits n n le_rfl]
    simp [Nat.digits_ne_nil_iff_ne_zero.mpr hn]

/-- `pyStrInt` is injective. -/
theorem pyStrInt_inj {i j : Int} (h : pyStrInt i = pyStrInt j) : i = j := by
  by_cases hi : i < 0 <;> by_cases hj : j < 0
  · rw [pyStrInt, pyStrInt, if_pos hi, if_pos hj] at h
    have := congrArg String.data h
    simp only [String.data_append] at this
    have h2 : (pyStrNat (-i).toNat).data = (pyStrNat (-j).toNat).data := by
      simpa using this
    have := pyStrNat_inj (String.ext h2)
    omega
  · exfalso
    rw [pyStrInt, pyStrInt, if_pos hi, if_neg hj] at h
    have hd := congrArg String.data h
    simp only [String.data_append] at hd
    rcases he : (pyStrNat j.toNat).data with _ | ⟨c, t⟩
    · exact pyStrNat_ne_nil _ he
    · rw [he] at hd
      have : '-' = c := by
        have : ('-' :: (pyStrNat (-i).toNat).data) = c :: t := by simpa using hd
        exact (List.cons.injEq _ _ _ _ ▸ this).1
      rcases pyStrNat_chars j.toNat c (by rw [he]; simp) with ⟨d, hd10, hc⟩
      exact digitChar_ne_dash d hd10 (by rw [← hc, ← this])
  · exfalso
    rw [pyStrInt, pyStrInt, if_neg hi, if_pos hj] at h
    have hd := congrArg String.data h
    simp only [String.data_append] at hd
    rcases he : (pyStrNat i.toNat).data with _ | ⟨c, t⟩
    · exact pyStrNat_ne_nil _ he
    · rw [he] at hd
      have : c = '-' := by
        have : c :: t = ('-' :: (pyStrNat (-j).toNat).data) := by simpa using hd
        exact (List.cons.injEq _ _ _ _ ▸ this).1
      rcases pyStrNat_chars i.toNat c (by rw [he]; simp) with ⟨d, hd10, hc⟩
      exact digitChar_ne_dash d hd10 (by rw [← hc, this])
  · rw [pyStrInt, pyStrInt, if_neg hi, if_neg hj] at h
    have := pyStrNat_inj h
    omega

/-- `pyStrInt` never contains `'|'`. -/
theorem pyStrInt_no_pipe (i : Int) : '|' ∉ (pyStrInt i).data := by
  intro hmem
  rw [pyStrInt] at hmem
  have digitCase : ∀ n : Nat, '|' ∈ (pyStrNat n).data → False := by
    intro n hn
    rcases pyStrNat_chars n '|' hn with ⟨d, hd10, hc⟩
    exact digitChar_ne_pipe d hd10 hc.symm
  split at hmem
  · simp only [String.data_append] at hmem
    rcases List.mem_append.mp hmem with h1 | h2
    · simp at h1
    · exact digitCase _ h2
  · exact digitCase _ hmem

/-- Single-character containment agrees with list membership. -/
theorem listIsInfix_single (ch : Char) :
    ∀ l : List Char, listIsInfix [ch] l = true ↔ ch ∈ l := by
  intro l
  induction l with
  | nil => simp [listIsInfix]
  | cons c rest ih =>
    rw [listIsInfix]
    simp only [Bool.or_eq_true, ih, List.mem_cons, List.isPrefixOf_iff_prefix,
      List.cons_prefix_cons]
    simp [eq_comm]

/-- Splitting at the first separator is unambiguous when neither prefix
contains the separator. -/
theorem append_pipe_inj : ∀ (a b x y : List Char), '|' ∉ a → '|' ∉ b →
    a ++ '|' :: x = b ++ '|' :: y → a = b ∧ x = y := by
  intro a
  induction a with
  | nil =>
    intro b x y _ hb h
    cases b with
    | nil => simpa using h
    | cons d b' =>
      exfalso
      simp only [List.nil_append, List.cons_append, List.cons.injEq] at h
      exact hb (by rw [← h.1]; exact List.mem_cons_self _ _)
  | cons e a' ih =>
    intro b x y ha hb h
    cases b with
    | nil =>
      exfalso
      simp only [List.cons_append, List.nil_append, List.cons.injEq] at h
      exact ha (by rw [h.1]; exact List.mem_cons_self _ _)
    | cons d b' =>
      simp only [List.cons_append, List.cons.injEq] at h
      obtain ⟨rfl, h2⟩ := h
      have hr := ih b' x y (fun hm => ha (List.mem_cons_of_mem _ hm))
        (fun hm => hb (List.mem_cons_of_mem _ hm)) h2
      exact ⟨by rw [hr.1], hr.2⟩

/-- `pyContains s "|" = false` means no character of `s` is `'|'`. -/
theorem no_pipe_of_not_contains {s : String} (h : pyContains s "|" = false) :
    '|' ∉ s.data := by
  intro hmem
  rw [pyContains] at h
  have : listIsInfix "|".data s.data = true := (listIsInfix_single '|' s.data).mpr hmem
  rw [this] at h
  cases h

/-- **C7 (amended)**: the cache key is a pure function of
`(prompt, user_id, context)` — repeated calls agree — and the hashed
content string `f"{prompt}|{user_id}|{context}"` determines the three
components whenever the prompts are free of the separator `'|'`.  (The
original claim fails: a prompt containing `'|'` can collide with a
different triple, see the counterexample; and key inequality for distinct
contents would additionally require MD5 collision freedom.) -/
theorem cache_key_deterministic_content_injective :
    (∀ (p : String) (u : Int) (c : String),
      Cache.generate_cache_key p u c = Cache.generate_cache_key p u c) ∧
    (∀ (p₁ : String) (u₁ : Int) (c₁ p₂ : String) (u₂ : Int) (c₂ : String),
      pyContains p₁ "|" = false → pyContains p₂ "|" = false →
      Cache.cache_content p₁ u₁ c₁ = Cache.cache_content p₂ u₂ c₂ →
      p₁ = p₂ ∧ u₁ = u₂ ∧ c₁ = c₂) := by
  refine ⟨fun p u c => rfl, ?_⟩
  intro p₁ u₁ c₁ p₂ u₂ c₂ hp₁ hp₂ h
  have hd := congrArg String.data h
  simp only [Cache.cache_content, String.data_append, List.append_assoc] at hd
  have hd' : p₁.data ++ '|' :: ((pyStrInt u₁).data ++ '|' :: c₁.data) =
      p₂.data ++ '|' :: ((pyStrInt u₂).data ++ '|' :: c₂.data) := by
    simpa using hd
  have h1 := append_pipe_inj _ _ _ _ (no_pipe_of_not_contains hp₁)
    (no_pipe_of_not_contains hp₂) hd'
  have h2 := append_pipe_inj _ _ _ _ (pyStrInt_no_pipe u₁) (pyStrInt_no_pipe u₂)
    h1.2
  refine ⟨String.ext h1.1, pyStrInt_inj (String.ext h2.1), String.ext h2.2⟩

/-- **C7 (counterexample)**: two triples differing in every component whose
keys coincide, because the pipe-joined content strings coincide:
`("a|1", 2, "x")` and `("a", 1, "2|x")` both hash `"a|1|2|x"`. -/
theorem cache_key_collision_counterexample :
    ("a|1" ≠ "a" ∧ (2 : Int) ≠ 1 ∧ "x" ≠ "2|x") ∧
    Cache.cache_content "a|1" 2 "x" = Cache.cache_content "a" 1 "2|x" ∧
    Cache.generate_cache_key "a|1" 2 "x" = Cache.generate_cache_key "a" 1 "2|x" :=
  ⟨by decide, by decide, by
    unfold Cache.generate_cache_key
    exact congrArg md5HexOfString (by decide)⟩

/-- Concrete instance of the amended C7 statement at a pipe-free prompt. -/
theorem cache_key_content_injective_witness :
    pyContains "analyze me" "|" = false ∧
    ("analyze me" = "analyze me" ∧ (7 : Int) = 7 ∧ "some ctx" = "some ctx") :=
  ⟨by decide,
   cache_key_deterministic_content_injective.2 "analyze me" 7 "some ctx"
     "analyze me" 7 "some ctx" (by decide) (by decide) rfl⟩

/-! ### Budget-planner lemmas -/

namespace Core

/-- Token counts are non-negative. -/
theorem count_tokens_nonneg (s : String) : 0 ≤ count_tokens s := by
  rw [count_tokens]
  exact Int.natCast_nonneg _

/-- A text of at most 100 characters counts at most 25 tokens. -/
theorem count_tokens_le_25 {s : String} (h : pyLen s ≤ 100) :
    count_tokens s ≤ 25 := by
  rw [count_tokens]
  have : pyLen s / 4 ≤ 25 := by omega
  exact_mod_cast this

/-- The compression `while` loop exits with the text either within the
token budget or at most 100 characters long (the loop guard), provided the
fuel covers the length. -/
theorem compressWhile_post :
    ∀ (f : Nat) (s : String) (max_tokens : Int), pyLen s ≤ f →
      count_tokens (compressWhile max_tokens f s) ≤ max_tokens ∨
      pyLen (compressWhile max_tokens f s) ≤ 100 := by
  intro f
  induction f with
  | zero =>
    intro s max_tokens h
    right
    rw [show compressWhile max_tokens 0 s = s from rfl]
    omega
  | succ f ih =>
    intro s max_tokens h
    rw [compressWhile]
    split
    · rename_i hcond
      apply ih
      have hlen : pyLen (pyDropRight s 100 ++ "...") = pyLen s - 100 + 3 := by
        simp only [pyLen, pyDropRight, String.data_append, List.length_append,
          List.length_take]
        have : pyLen s > 100 := hcond.2
        simp only [pyLen] at this
        simp [Nat.min_def]
      rw [hlen]
      have : pyLen s > 100 := hcond.2
      omega
    · rename_i hcond
      rcases not_and_or.mp hcond with h1 | h2
      · left; omega
      · right; omega

/-- `_compress_context` returns a context within the requested budget or,
in the 100-character bail-out, of at most 25 tokens. -/
theorem compress_context_post (context : String) (max_tokens : Int) :
    count_tokens (compress_context context max_tokens) ≤ max_tokens ∨
    count_tokens (compress_context context max_tokens) ≤ 25 := by
  rw [compress_context]
  split
  · left; assumption
  · rcases compressWhile_post _ _ max_tokens le_rfl with h | h
    · left; exact h
    · right; exact count_tokens_le_25 h

end Core

/-- **C2 (amended)**: for every configuration, prompt, context and tier,
`optimize_prompt` either satisfies the budget invariant
`prompt_tokens + context_tokens + response_reserve ≤ adaptive_max` or
returns a context of at most `max(min_tokens, 25)` tokens — the second
disjunct covering both the documented minimum-context-degradation path
(bounded by the `min_tokens` floor) and the undocumented compression
bail-out, where the `while` loop stops shrinking at 100 characters
(25 tokens) even though the remaining allowance is smaller. -/
theorem optimize_prompt_budget_amended (cfg : BotConfig)
    (prompt context user_type prompt_type : String) :
    Core.count_tokens (Core.optimize_prompt cfg prompt context user_type prompt_type).1 +
      Core.count_tokens (Core.optimize_prompt cfg prompt context user_type prompt_type).2.1 +
      cfg.response_tokens ≤
      getAdaptiveLimitsMaxTokens cfg (Core.conversation_length_of context) user_type ∨
    Core.count_tokens (Core.optimize_prompt cfg prompt context user_type prompt_type).2.1 ≤
      max cfg.min_tokens 25 := by
  unfold Core.optimize_prompt
  dsimp only
  by_cases hfit : Core.count_tokens prompt + Core.count_tokens context ≤
      getAdaptiveLimitsMaxTokens cfg (Core.conversation_length_of context) user_type -
        cfg.response_tokens
  · rw [if_pos hfit]
    dsimp only
    left
    omega
  · rw [if_neg hfit]
    by_cases hmin : getAdaptiveLimitsMaxTokens cfg (Core.conversation_length_of context)
        user_type - cfg.response_tokens - Core.count_tokens prompt ≤ 0
    · rw [if_pos hmin]
      dsimp only
      rcases Core.compress_context_post context cfg.min_tokens with h | h
      · right; exact le_trans h (le_max_left _ _)
      · right; exact le_trans h (le_max_right _ _)
    · rw [if_neg hmin]
      dsimp only
      rcases Core.compress_context_post context
          (getAdaptiveLimitsMaxTokens cfg (Core.conversation_length_of context) user_type -
            cfg.response_tokens - Core.count_tokens prompt) with h | h
      · left; omega
      · right; exact le_trans h (le_max_right _ _)

/-- **C2 (counterexample)**: the claim as stated fails.  With the default
configuration, a 9904-character prompt (2476 tokens) and a 197-character
17-line context (adaptive budget 3500, reserve 1000, context allowance
3500 − 1000 − 2476 = 24 > 0, so *not* the minimum-context path), the
compression loop bails out at 100 characters = 25 tokens and the returned
pair violates `prompt + context + reserve ≤ adaptive max` (2476 + 25 +
1000 = 3501 > 3500). -/
theorem optimize_prompt_budget_counterexample :
    ¬ (Core.count_tokens
        (Core.optimize_prompt defaultConfig c2prompt c2context "free" "general").1 +
      Core.count_tokens
        (Core.optimize_prompt defaultConfig c2prompt c2context "free" "general").2.1 +
      defaultConfig.response_tokens ≤
      getAdaptiveLimitsMaxTokens defaultConfig
        (Core.conversation_length_of c2context) "free" ∨
      (Core.min_context_path defaultConfig c2prompt c2context "free" ∧
       Core.count_tokens
         (Core.optimize_prompt defaultConfig c2prompt c2context "free" "general").2.1 ≤
         defaultConfig.min_tokens)) := by
  have hp : Core.count_tokens c2prompt = 2476 := by
    rw [Core.count_tokens]
    have : pyLen c2prompt = 9904 := by
      rw [pyLen, c2prompt]
      exact List.length_replicate 9904 'a'
    rw [this]
    norm_num
  have hmax : getAdaptiveLimitsMaxTokens defaultConfig
      (Core.conversation_length_of c2context) "free" = 3500 := by decide
  have hctx : Core.count_tokens c2context = 49 := by decide
  have hcc : Core.count_tokens (Core.compress_context c2context 24) = 25 := by decide
  have hfit : ¬ (Core.count_tokens c2prompt + Core.count_tokens c2context ≤
      getAdaptiveLimitsMaxTokens defaultConfig
        (Core.conversation_length_of c2context) "free" - defaultConfig.response_tokens) := by
    rw [hp, hctx, hmax]
    norm_num [defaultConfig]
  have hmin : ¬ (getAdaptiveLimitsMaxTokens defaultConfig
      (Core.conversation_length_of c2context) "free" - defaultConfig.response_tokens -
      Core.count_tokens c2prompt ≤ 0) := by
    rw [hp, hmax]
    norm_num [defaultConfig]
  have htgt : getAdaptiveLimitsMaxTokens defaultConfig
      (Core.conversation_length_of c2context) "free" - defaultConfig.response_tokens -
      Core.count_tokens c2prompt = 24 := by
    rw [hp, hmax]
    norm_num [defaultConfig]
  have h1 : (Core.optimize_prompt defaultConfig c2prompt c2context "free" "general").1 =
      c2prompt := by
    unfold Core.optimize_prompt
    dsimp only
    rw [if_neg hfit, if_neg hmin]
  have h2 : (Core.optimize_prompt defaultConfig c2prompt c2context "free" "general").2.1 =
      Core.compress_context c2context 24 := by
    unfold Core.optimize_prompt
    dsimp only
    rw [if_neg hfit, if_neg hmin, htgt]
  intro h
  rcases h with h | ⟨hpath, _⟩
  · rw [h1, h2, hp, hcc, hmax] at h
    norm_num [defaultConfig] at h
  · unfold Core.min_context_path at hpath
    exact hmin hpath.2

/-- **C9 (amended)**: when prompt and context fit within the adaptive
budget minus the reserve, `optimize_prompt` returns them unchanged, but the
reported `total_tokens` is `prompt_tokens + context_tokens +
estimate_response_tokens(...)`, not the bare sum: the estimated completion
allowance is added in. -/
theorem optimize_prompt_fits_total (cfg : BotConfig)
    (prompt context user_type prompt_type : String)
    (h : Core.count_tokens prompt + Core.count_tokens context ≤
      getAdaptiveLimitsMaxTokens cfg (Core.conversation_length_of context) user_type -
        cfg.response_tokens) :
    (Core.optimize_prompt cfg prompt context user_type prompt_type).1 = prompt ∧
    (Core.optimize_prompt cfg prompt context user_type prompt_type).2.1 = context ∧
    (Core.optimize_prompt cfg prompt context user_type prompt_type).2.2.total_tokens =
      Core.count_tokens prompt + Core.count_tokens context +
        Core.estimate_response_tokens cfg (Core.count_tokens prompt)
          (Core.conversation_length_of context) prompt_type := by
  unfold Core.optimize_prompt
  dsimp only
  rw [if_pos h]
  exact ⟨rfl, rfl, rfl⟩

/-- **C9 (counterexample)**: the spec's scenario 1.  With the default
configuration (tier max 4000, adaptive 4200 for a 1-line context, reserve
1000), a 50-token prompt and a 200-token context are returned unchanged,
but `total_tokens` is `250 + 350 = 600` (the 350-token response estimate
for a short `general` prompt with a short conversation), not 250. -/
theorem optimize_prompt_c9_counterexample :
    (Core.optimize_prompt defaultConfig c9prompt c9context "free" "general").1 =
      c9prompt ∧
    (Core.optimize_prompt defaultConfig c9prompt c9context "free" "general").2.1 =
      c9context ∧
    Core.count_tokens c9prompt = 50 ∧
    Core.count_tokens c9context = 200 ∧
    (Core.optimize_prompt defaultConfig c9prompt c9context "free" "general").2.2.total_tokens
      = 600 ∧
    ¬ ((Core.optimize_prompt defaultConfig c9prompt c9context "free" "general").2.2.total_tokens
      = 250) := by
  decide

/-- Concrete instance of the amended C9 statement at the scenario inputs. -/
theorem optimize_prompt_fits_total_witness :
    (Core.count_tokens c9prompt + Core.count_tokens c9context ≤
      getAdaptiveLimitsMaxTokens defaultConfig
        (Core.conversation_length_of c9context) "free" -
        defaultConfig.response_tokens) ∧
    (Core.optimize_prompt defaultConfig c9prompt c9context "free" "general").2.2.total_tokens =
      Core.count_tokens c9prompt + Core.count_tokens c9context +
        Core.estimate_response_tokens defaultConfig (Core.count_tokens c9prompt)
          (Core.conversation_length_of c9context) "general" :=
  ⟨by decide,
   (optimize_prompt_fits_total defaultConfig c9prompt c9context "free" "general"
     (by decide)).2.2⟩

/-! ### ContextCompressor lemmas -/

/-- Concatenation adds lengths. -/
theorem pyLen_append (a b : String) : pyLen (a ++ b) = pyLen a + pyLen b := by
  simp [pyLen, String.data_append]

namespace Compressor

/-- Analysis keeps the message texts (it only decorates them with
importance scores). -/
theorem analyze_messages_texts (messages : List String) :
    (analyze_messages messages).map (fun m => m.text) = messages := by
  rw [analyze_messages, List.mapIdx_eq_enum_map, List.map_map]
  have : ((fun m : Msg => m.text) ∘ Function.uncurry fun i text =>
      { text := text
        importance := calculate_importance text i messages.length
        timestamp := "msg_" ++ pyStrNat (i + 1) : Msg }) = Prod.snd := by
    funext p
    cases p
    rfl
  rw [this, List.enum_map_snd]

/-- A space-join is no longer than the sum of the word lengths plus one
separator per word. -/
theorem pyJoin_space_len_le :
    ∀ l : List String, (pyLen (pyJoin " " l) : Int) ≤
      (l.map fun w => (pyLen w : Int) + 1).sum := by
  intro l
  induction l with
  | nil => simp [pyJoin, pyLen]
  | cons x rest ih =>
    cases rest with
    | nil => simp [pyJoin]
    | cons y t =>
      rw [pyJoin]
      simp only [List.map_cons, List.sum_cons] at ih ⊢
      rw [pyLen_append, pyLen_append]
      push_cast
      have hsep : pyLen " " = 1 := rfl
      rw [hsep]
      omega

/-- The word loop accounts for at most the remaining character budget,
separators included. -/
theorem truncWords_sum (max_chars : Int) :
    ∀ (ws : List String) (cl : Int), 0 ≤ cl → cl ≤ max_chars →
      ((truncWords max_chars ws cl).map fun w => (pyLen w : Int) + 1).sum ≤
        max_chars - cl := by
  intro ws
  induction ws with
  | nil =>
    intro cl h0 hle
    simp [truncWords]
    omega
  | cons w rest ih =>
    intro cl h0 hle
    rw [truncWords]
    split
    · rename_i hfit
      simp only [List.map_cons, List.sum_cons]
      have hw : (0 : Int) ≤ pyLen w := by positivity
      have := ih (cl + pyLen w + 1) (by omega) (by omega)
      omega
    · simp only [List.map_nil, List.sum_nil]
      omega

/-- `_truncate_text` returns at most `4 * max_tokens` characters when it
truncates, and never more than the original text. -/
theorem truncate_text_len (text : String) (max_tokens : Int)
    (h : 0 ≤ max_tokens) :
    (pyLen (truncate_text text max_tokens) : Int) ≤
      max (pyLen text : Int) (max_tokens * 4) := by
  rw [truncate_text]
  split
  · exact le_max_left _ _
  · refine le_trans ?_ (le_max_right _ _)
    refine le_trans (pyJoin_space_len_le _) ?_
    have := truncWords_sum (max_tokens * 4) (pySplitWs text) 0 le_rfl (by omega)
    omega

/-- The greedy selection keeps the total token count of the selected
texts within the budget, given the running total so far. -/
theorem selectAux_bound (max_tokens : Int) :
    ∀ (l : List Msg) (cur : Int), cur ≤ max_tokens →
      cur + ((selectAux max_tokens l cur).map fun m =>
        count_tokensC m.text).sum ≤ max_tokens := by
  intro l
  induction l with
  | nil =>
    intro cur h
    simp [selectAux]
    omega
  | cons m rest ih =>
    intro cur h
    rw [selectAux]
    dsimp only
    split
    · rename_i hfit
      simp only [List.map_cons, List.sum_cons]
      have := ih (cur + count_tokensC m.text) hfit
      omega
    · rename_i hover
      split
      · rename_i hrem
        simp only [List.map_cons, List.map_nil, List.sum_cons, List.sum_nil]
        have hlen : (pyLen (truncate_text m.text (max_tokens - cur) ++ "...") : Int) =
            (pyLen (truncate_text m.text (max_tokens - cur)) : Int) + 3 := by
          rw [pyLen_append]
          push_cast
          rfl
        have hbound : (pyLen (truncate_text m.text (max_tokens - cur)) : Int) ≤
            (max_tokens - cur) * 4 := by
          rw [truncate_text]
          split
          · assumption
          · refine le_trans (pyJoin_space_len_le _) ?_
            have := truncWords_sum ((max_tokens - cur) * 4) (pySplitWs m.text) 0
              le_rfl (by omega)
            omega
        rw [count_tokensC]
        set n := pyLen (truncate_text m.text (max_tokens - cur) ++ "...") with hn
        have hfin : (n : Int) ≤ (max_tokens - cur) * 4 + 3 := by omega
        have hnat : n ≤ (max_tokens - cur).toNat * 4 + 3 := by omega
        have hdiv : n / 4 ≤ (max_tokens - cur).toNat := by omega
        have hcast : ((n / 4 : Nat) : Int) ≤ ((max_tokens - cur).toNat : Int) := by
          exact_mod_cast hdiv
        omega
      · simp only [List.map_nil, List.sum_nil]
        omega

end Compressor

/-- **C3 (amended)**: for every non-empty message list and budget above
the 50-token floor, the total token count of the message *texts* that
`compress_conversation` incorporates (`selected_texts`) is at most the
budget; and the returned string is exactly those texts dressed with the
`"Сообщение ..."` labels (and, when compressed, the lossy-context header)
— formatting overhead the code never counts, which is why the claim fails
for the formatted output itself. -/
theorem compress_conversation_selected_within_budget
    (messages : List String) (max_tokens : Int)
    (hne : messages ≠ []) (hbudget : 50 < max_tokens) :
    ((Compressor.selected_texts messages max_tokens).map
      Compressor.count_tokensC).sum ≤ max_tokens ∧
    Compressor.compress_conversation messages max_tokens =
      (if ((Compressor.analyze_messages messages).map fun m =>
            Compressor.count_tokensC m.text).sum ≤ max_tokens
       then Compressor.format_messages (Compressor.analyze_messages messages)
       else Compressor.create_compressed_context
         (Compressor.select_messages
           (Compressor.prioritize_messages (Compressor.analyze_messages messages))
           max_tokens)
         (Compressor.analyze_messages messages)) := by
  constructor
  · rw [Compressor.selected_texts, if_neg hne]
    dsimp only
    split
    · rename_i hfit
      have htexts := Compressor.analyze_messages_texts messages
      calc ((Compressor.analyze_messages messages).map (fun m => m.text)
              |>.map Compressor.count_tokensC).sum
          = ((Compressor.analyze_messages messages).map fun m =>
              Compressor.count_tokensC m.text).sum := by
            rw [List.map_map]
            rfl
        _ ≤ max_tokens := hfit
    · have := Compressor.selectAux_bound max_tokens
        (Compressor.prioritize_messages (Compressor.analyze_messages messages))
        0 (by omega)
      rw [Compressor.select_messages]
      rw [List.map_map]
      have heq : ((Compressor.selectAux max_tokens
          (Compressor.prioritize_messages (Compressor.analyze_messages messages)) 0).map
            (Compressor.count_tokensC ∘ fun m => m.text)).sum =
          ((Compressor.selectAux max_tokens
          (Compressor.prioritize_messages (Compressor.analyze_messages messages)) 0).map
            fun m => Compressor.count_tokensC m.text).sum := rfl
      rw [heq]
      omega
  · rw [Compressor.compress_conversation, if_neg hne]

/-- Concrete instance of the amended C3 statement. -/
theorem compress_conversation_selected_witness :
    ([c3message] ≠ ([] : List String) ∧ (50 : Int) < 51) ∧
    ((Compressor.selected_texts [c3message] 51).map
      Compressor.count_tokensC).sum ≤ 51 :=
  ⟨⟨by decide, by decide⟩,
   (compress_conversation_selected_within_budget [c3message] 51
     (by decide) (by decide)).1⟩

/-- **C3 (counterexample)**: the claim as stated fails.  One 207-character
message (51 tokens) fits a budget of 51, so the fits-branch formats it as
`"Сообщение 1: <text>"` — 220 characters = 55 tokens > 51: the labelling
overhead is never counted against the budget. -/
theorem compress_conversation_counterexample :
    ([c3message] ≠ ([] : List String)) ∧ (50 : Int) < 51 ∧
    Compressor.count_tokensC (Compressor.compress_conversation [c3message] 51) = 55 ∧
    ¬ (Compressor.count_tokensC (Compressor.compress_conversation [c3message] 51) ≤ 51) := by
  refine ⟨by decide, by decide, ?_, ?_⟩ <;> decide

/-! ### TokenMonitor lemmas -/

namespace Monitor

/-- `_apply_optimization` only rewrites the preference fields: the EMA
fields are untouched. -/
theorem apply_optimization_preserves (p : UserPatterns) (stype : String) :
    (apply_optimization p stype).truncation_rate = p.truncation_rate ∧
    (apply_optimization p stype).satisfaction_score = p.satisfaction_score := by
  rw [apply_optimization]
  split
  · split
    · exact ⟨rfl, rfl⟩
    · split
      · exact ⟨rfl, rfl⟩
      · exact ⟨rfl, rfl⟩
  · split
    · split
      · exact ⟨rfl, rfl⟩
      · exact ⟨rfl, rfl⟩
    · exact ⟨rfl, rfl⟩

/-- Auto-optimization (a fold of `_apply_optimization` plus a timestamp)
preserves the EMA fields. -/
theorem foldl_apply_preserves :
    ∀ (l : List (String × Bool)) (q : UserPatterns),
      ((l.foldl (fun q s => if s.2 then apply_optimization q s.1 else q) q).truncation_rate
        = q.truncation_rate) ∧
      ((l.foldl (fun q s => if s.2 then apply_optimization q s.1 else q) q).satisfaction_score
        = q.satisfaction_score) := by
  intro l
  induction l with
  | nil => intro q; exact ⟨rfl, rfl⟩
  | cons s t ih =>
    intro q
    rw [List.foldl_cons]
    rcases ih (if s.2 then apply_optimization q s.1 else q) with ⟨h1, h2⟩
    rw [h1, h2]
    split
    · exact apply_optimization_preserves q s.1
    · exact ⟨rfl, rfl⟩

/-- `_check_optimization_needed` (and the auto-optimization it may
trigger) preserves the EMA fields. -/
theorem check_optimization_preserves (stats : UsageStats) (p : UserPatterns)
    (now : Int) :
    (check_optimization_needed stats p now).truncation_rate = p.truncation_rate ∧
    (check_optimization_needed stats p now).satisfaction_score = p.satisfaction_score := by
  rw [check_optimization_needed]
  split
  · exact ⟨rfl, rfl⟩
  · split
    · rw [auto_optimize_user]
      exact foldl_apply_preserves (suggestion_types stats p) p
    · exact ⟨rfl, rfl⟩

/-- `update_avg` does not touch the rate or the satisfaction score. -/
theorem update_avg_preserves (p : UserPatterns) (rl : Int) :
    (update_avg p rl).truncation_rate = p.truncation_rate ∧
    (update_avg p rl).satisfaction_score = p.satisfaction_score := by
  rw [update_avg]
  split <;> exact ⟨rfl, rfl⟩

/-- `update_rate` clamps the rate into `[0, 1]` whenever it starts there,
and does not touch the satisfaction score. -/
theorem update_rate_bounds (p : UserPatterns) (t : Bool)
    (h0 : 0 ≤ p.truncation_rate) (h1 : p.truncation_rate ≤ 1) :
    (0 ≤ (update_rate p t).truncation_rate ∧
      (update_rate p t).truncation_rate ≤ 1) ∧
    (update_rate p t).satisfaction_score = p.satisfaction_score := by
  rw [update_rate]
  split
  · refine ⟨⟨le_min (by linarith) (by norm_num), min_le_right _ _⟩, rfl⟩
  · refine ⟨⟨le_max_right _ _, max_le (by linarith) (by norm_num)⟩, rfl⟩

/-- `update_rate` does not touch the satisfaction score. -/
theorem update_rate_score (p : UserPatterns) (t : Bool) :
    (update_rate p t).satisfaction_score = p.satisfaction_score := by
  rw [update_rate]
  split <;> rfl

/-- `update_satisfaction` does not touch the rate, and keeps the score in
`[0, 5]` when both the old score and the sample are in `[0, 5]`. -/
theorem update_satisfaction_props (p : UserPatterns) (sat : Option Rat)
    (h0 : 0 ≤ p.satisfaction_score) (h5 : p.satisfaction_score ≤ 5)
    (hs : ∀ s, sat = some s → 0 ≤ s ∧ s ≤ 5) :
    (update_satisfaction p sat).truncation_rate = p.truncation_rate ∧
    0 ≤ (update_satisfaction p sat).satisfaction_score ∧
    (update_satisfaction p sat).satisfaction_score ≤ 5 := by
  cases sat with
  | none => exact ⟨rfl, h0, h5⟩
  | some s =>
    rcases hs s rfl with ⟨hs0, hs5⟩
    rw [update_satisfaction]
    split
    · exact ⟨rfl, hs0, hs5⟩
    · exact ⟨rfl, by linarith, by linarith⟩

/-- `update_satisfaction` never touches the rate, whatever the sample. -/
theorem update_satisfaction_rate (p : UserPatterns) (sat : Option Rat) :
    (update_satisfaction p sat).truncation_rate = p.truncation_rate := by
  cases sat with
  | none => rfl
  | some s =>
    rw [update_satisfaction]
    split <;> rfl

/-- One tracked request keeps `truncation_rate` within `[0, 1]`. -/
theorem track_request_rate_bounds (st : MonitorState) (inp : TrackInput)
    (h0 : 0 ≤ st.pattern.truncation_rate) (h1 : st.pattern.truncation_rate ≤ 1) :
    0 ≤ (track_request st inp).pattern.truncation_rate ∧
    (track_request st inp).pattern.truncation_rate ≤ 1 := by
  rw [track_request]
  dsimp only
  rw [(check_optimization_preserves _ _ _).1, update_satisfaction_rate]
  have havg := update_avg_preserves st.pattern inp.response_length
  have := update_rate_bounds (update_avg st.pattern inp.response_length)
    inp.truncated (by rw [havg.1]; exact h0) (by rw [havg.1]; exact h1)
  exact this.1

/-- One tracked request keeps `satisfaction_score` within `[0, 5]` when
the supplied satisfaction sample (if any) is within `[0, 5]`. -/
theorem track_request_score_bounds (st : MonitorState) (inp : TrackInput)
    (h0 : 0 ≤ st.pattern.satisfaction_score)
    (h5 : st.pattern.satisfaction_score ≤ 5)
    (hs : ∀ s, inp.satisfaction = some s → 0 ≤ s ∧ s ≤ 5) :
    0 ≤ (track_request st inp).pattern.satisfaction_score ∧
    (track_request st inp).pattern.satisfaction_score ≤ 5 := by
  rw [track_request]
  dsimp only
  rw [(check_optimization_preserves _ _ _).2]
  have hsc : (update_rate (update_avg st.pattern inp.response_length)
      inp.truncated).satisfaction_score = st.pattern.satisfaction_score := by
    rw [update_rate_score, (update_avg_preserves _ _).2]
  have hprops := update_satisfaction_props
    (update_rate (update_avg st.pattern inp.response_length) inp.truncated)
    inp.satisfaction (by rw [hsc]; exact h0) (by rw [hsc]; exact h5) hs
  exact ⟨hprops.2.1, hprops.2.2⟩

end Monitor

/-- Folding any request history preserves the rate clamp. -/
theorem track_foldl_rate :
    ∀ (inputs : List Monitor.TrackInput) (st : Monitor.MonitorState),
      0 ≤ st.pattern.truncation_rate → st.pattern.truncation_rate ≤ 1 →
      0 ≤ (inputs.foldl Monitor.track_request st).pattern.truncation_rate ∧
      (inputs.foldl Monitor.track_request st).pattern.truncation_rate ≤ 1 := by
  intro inputs
  induction inputs with
  | nil => intro st h0 h1; exact ⟨h0, h1⟩
  | cons inp rest ih =>
    intro st h0 h1
    rw [List.foldl_cons]
    have := Monitor.track_request_rate_bounds st inp h0 h1
    exact ih _ this.1 this.2

/-- Folding a request history whose satisfaction samples lie in `[0, 5]`
keeps the score in `[0, 5]`. -/
theorem track_foldl_score :
    ∀ (inputs : List Monitor.TrackInput) (st : Monitor.MonitorState),
      0 ≤ st.pattern.satisfaction_score → st.pattern.satisfaction_score ≤ 5 →
      (∀ inp ∈ inputs, ∀ s, inp.satisfaction = some s → 0 ≤ s ∧ s ≤ 5) →
      0 ≤ (inputs.foldl Monitor.track_request st).pattern.satisfaction_score ∧
      (inputs.foldl Monitor.track_request st).pattern.satisfaction_score ≤ 5 := by
  intro inputs
  induction inputs with
  | nil => intro st h0 h5 _; exact ⟨h0, h5⟩
  | cons inp rest ih =>
    intro st h0 h5 hs
    rw [List.foldl_cons]
    have := Monitor.track_request_score_bounds st inp h0 h5
      (fun s h => hs inp (by simp) s h)
    exact ih _ this.1 this.2 fun i hi s h => hs i (by simp [hi]) s h

/-- **C6 (amended)**: after arbitrarily many `track_request` calls with
arbitrary argument values, `truncation_rate` stays within `[0, 1]` — its
update really is clamped every time — but `satisfaction_score` is *not*
clamped: it stays within `[0, 5]` only under the extra hypothesis that
every supplied satisfaction sample lies in `[0, 5]` (the EMA is a convex
combination of the samples and the initial 0). -/
theorem track_all_ema_bounds (user_id created : Int)
    (inputs : List Monitor.TrackInput) :
    (0 ≤ (Monitor.track_all user_id created inputs).pattern.truncation_rate ∧
      (Monitor.track_all user_id created inputs).pattern.truncation_rate ≤ 1) ∧
    ((∀ inp ∈ inputs, ∀ s, inp.satisfaction = some s → 0 ≤ s ∧ s ≤ 5) →
      0 ≤ (Monitor.track_all user_id created inputs).pattern.satisfaction_score ∧
      (Monitor.track_all user_id created inputs).pattern.satisfaction_score ≤ 5) :=
  ⟨track_foldl_rate inputs _ (by norm_num [Monitor.newUserPatterns])
      (by norm_num [Monitor.newUserPatterns]),
   fun hs => track_foldl_score inputs _
     (by norm_num [Monitor.newUserPatterns])
     (by norm_num [Monitor.newUserPatterns]) hs⟩

/-- **C6 (counterexample)**: `satisfaction_score` is not clamped.  A
single tracked request with satisfaction `6` leaves the score at `6`
(outside `[0, 5]`), and one with satisfaction `100` leaves it at `100`:
the stored score scales with the input, so no fixed bounds hold. -/
theorem track_satisfaction_unclamped_counterexample :
    (Monitor.track_all 1 0
      [{ prompt_tokens := 10, response_tokens := 10, response_length := 100,
         truncated := false, satisfaction := some 6, now := 0 }]).pattern.satisfaction_score
      = 6 ∧
    ¬ ((Monitor.track_all 1 0
      [{ prompt_tokens := 10, response_tokens := 10, response_length := 100,
         truncated := false, satisfaction := some 6, now := 0 }]).pattern.satisfaction_score
      ≤ 5) ∧
    (Monitor.track_all 1 0
      [{ prompt_tokens := 10, response_tokens := 10, response_length := 100,
         truncated := false, satisfaction := some 100, now := 0 }]).pattern.satisfaction_score
      = 100 := by
  refine ⟨?_, ?_, ?_⟩ <;> decide

/-- Concrete instance of the amended C6 statement: a short history with
in-range satisfaction samples. -/
theorem track_all_ema_bounds_witness :
    (0 ≤ (Monitor.track_all 1 0
        [{ prompt_tokens := 10, response_tokens := 10, response_length := 100,
           truncated := true, satisfaction := some 4, now := 0 }]).pattern.truncation_rate ∧
      (Monitor.track_all 1 0
        [{ prompt_tokens := 10, response_tokens := 10, response_length := 100,
           truncated := true, satisfaction := some 4, now := 0 }]).pattern.truncation_rate ≤ 1) ∧
    (0 ≤ (Monitor.track_all 1 0
        [{ prompt_tokens := 10, response_tokens := 10, response_length := 100,
           truncated := true, satisfaction := some 4, now := 0 }]).pattern.satisfaction_score ∧
      (Monitor.track_all 1 0
        [{ prompt_tokens := 10, response_tokens := 10, response_length := 100,
           truncated := true, satisfaction := some 4, now := 0 }]).pattern.satisfaction_score ≤ 5) :=
  ⟨(track_all_ema_bounds 1 0 _).1,
   (track_all_ema_bounds 1 0 _).2 (by
     intro inp hinp s h
     rw [List.mem_singleton] at hinp
     subst hinp
     simp only [Option.some.injEq] at h
     subst h
     norm_num)⟩

/-! ### Response-splitting lemmas -/

/-- Stripping never lengthens a string. -/
theorem pyStrip_len_le (s : String) : pyLen (pyStrip s) ≤ pyLen s := by
  rw [pyStrip, pyLen, pyLen, pyStripL]
  show (((s.data.dropWhile pySpace).reverse.dropWhile pySpace).reverse).length ≤ _
  rw [List.length_reverse]
  calc ((s.data.dropWhile pySpace).reverse.dropWhile pySpace).length
      ≤ (s.data.dropWhile pySpace).reverse.length :=
        (List.dropWhile_sublist _).length_le
    _ = (s.data.dropWhile pySpace).length := List.length_reverse _
    _ ≤ s.data.length := (List.dropWhile_sublist _).length_le

/-- An element delivered by `getLast?` is a member. -/
theorem mem_of_getLast?_eq {α : Type} {l : List α} {a : α}
    (h : l.getLast? = some a) : a ∈ l := by
  rcases List.mem_getLast?_eq_getLast (l := l) (x := a) (by rw [h]; rfl) with ⟨hne, rfl⟩
  exact List.getLast_mem hne

/-- Every element of a list is bounded by the running `foldr max`. -/
theorem le_foldr_max : ∀ (l : List Nat) (x : Nat), x ∈ l → x ≤ l.foldr max 0 := by
  intro l
  induction l with
  | nil => intro x h; cases h
  | cons a t ih =>
    intro x h
    rw [List.foldr_cons]
    rcases List.mem_cons.mp h with rfl | hmem
    · exact le_max_left _ _
    · exact le_trans (ih x hmem) (le_max_right _ _)

namespace Core

/-- Every sentence of every paragraph is bounded by `max_unit_len`. -/
theorem unit_le_max_unit_len {response para s : String}
    (hpara : para ∈ pySplit response "\n\n") (hs : s ∈ pySplit para ". ") :
    pyLen s ≤ max_unit_len response := by
  apply le_foldr_max
  rw [List.mem_map]
  refine ⟨s, ?_, rfl⟩
  rw [sentence_units, List.mem_flatMap]
  exact ⟨para, hpara, hs⟩

/-- Invariant of the sentence-packing loop: if the flushed parts, the
accumulator and all sentences are bounded by `B ≥ L + 2`, so is every part
of the result. -/
theorem splitParagraphAux_bound (L B : Int) (hB : L + 2 ≤ B) (hB0 : 0 ≤ B) :
    ∀ (sentences parts : List String) (current : String),
      (∀ p ∈ parts, (pyLen p : Int) ≤ B) → (pyLen current : Int) ≤ B →
      (∀ s ∈ sentences, (pyLen s : Int) ≤ B) →
      ∀ p ∈ splitParagraphAux L sentences parts current, (pyLen p : Int) ≤ B := by
  intro sentences
  induction sentences with
  | nil =>
    intro parts current hparts hcur _ p hp
    rw [splitParagraphAux] at hp
    rcases List.mem_append.mp hp with h | h
    · exact hparts p h
    · rcases (by split at h <;> simp_all : p = pyStrip current) with rfl
      exact le_trans (by exact_mod_cast pyStrip_len_le current) hcur
  | cons s rest ih =>
    intro parts current hparts hcur hsen p hp
    rw [splitParagraphAux] at hp
    split at hp
    · rename_i hfit
      refine ih parts _ hparts ?_ (fun x hx => hsen x (by simp [hx])) p hp
      split
      · exact hsen s (by simp)
      · rename_i hne
        rw [pyLen_append, pyLen_append]
        have : pyLen ". " = 2 := rfl
        rw [this]
        push_cast
        omega
    · refine ih _ s ?_ (hsen s (by simp)) (fun x hx => hsen x (by simp [hx])) p hp
      intro x hx
      rcases List.mem_append.mp hx with h | h
      · exact hparts x h
      · rcases (by split at h <;> simp_all : x = pyStrip current) with rfl
        exact le_trans (by exact_mod_cast pyStrip_len_le current) hcur

/-- Invariant of the paragraph loop of `split_long_response`. -/
theorem splitResponseAux_bound (L B : Int) (hB : L + 2 ≤ B) (hB0 : 0 ≤ B) :
    ∀ (paragraphs parts : List String) (current : String)
      (res : List String),
      (∀ p ∈ parts, (pyLen p : Int) ≤ B) → (pyLen current : Int) ≤ B →
      (∀ para ∈ paragraphs, ∀ s ∈ pySplit para ". ", (pyLen s : Int) ≤ B) →
      splitResponseAux L paragraphs parts current = some res →
      ∀ p ∈ res, (pyLen p : Int) ≤ B := by
  intro paragraphs
  induction paragraphs with
  | nil =>
    intro parts current res hparts hcur _ hres p hp
    rw [splitResponseAux] at hres
    rcases Option.some.inj hres with rfl
    rcases List.mem_append.mp hp with h | h
    · exact hparts p h
    · rcases (by split at h <;> simp_all : p = pyStrip current) with rfl
      exact le_trans (by exact_mod_cast pyStrip_len_le current) hcur
  | cons para rest ih =>
    intro parts current res hparts hcur hsen hres p hp
    rw [splitResponseAux] at hres
    split at hres
    · rename_i hfit
      refine ih parts _ res hparts ?_
        (fun x hx => hsen x (by simp [hx])) hres p hp
      split
      · -- current = "" so the new accumulator is the paragraph, which fits
        have hple : (pyLen para : Int) ≤ L := by
          rename_i hemp
          rw [hemp] at hfit
          simpa [pyLen] using hfit
        omega
      · rw [pyLen_append, pyLen_append]
        have : pyLen "\n\n" = 2 := rfl
        rw [this]
        push_cast
        omega
    · rename_i hover
      -- flush the accumulator
      have hparts' : ∀ x ∈ parts ++ (if current = "" then [] else [pyStrip current]),
          (pyLen x : Int) ≤ B := by
        intro x hx
        rcases List.mem_append.mp hx with h | h
        · exact hparts x h
        · rcases (by split at h <;> simp_all : x = pyStrip current) with rfl
          exact le_trans (by exact_mod_cast pyStrip_len_le current) hcur
      dsimp only at hres
      split at hres
      · -- over-long paragraph: sub-split it
        rename_i hlong
        have hsub : ∀ q ∈ split_long_paragraph para L, (pyLen q : Int) ≤ B := by
          rw [split_long_paragraph]
          exact splitParagraphAux_bound L B hB hB0 (pySplit para ". ") [] ""
            (by intro x hx; cases hx) (by simpa [pyLen] using hB0)
            (fun s hs => hsen para (by simp) s hs)
        rcases hlast : (split_long_paragraph para L).getLast? with _ | last
        · rw [hlast] at hres
          cases hres
        · rw [hlast] at hres
          refine ih _ last res ?_ ?_
            (fun x hx => hsen x (by simp [hx])) hres p hp
          · intro x hx
            rcases List.mem_append.mp hx with h | h
            · exact hparts' x h
            · exact hsub x (List.dropLast_subset _ h)
          · exact hsub last (mem_of_getLast?_eq hlast)
      · -- paragraph fits on its own: it becomes the new accumulator
        rename_i hshort
        refine ih _ para res hparts' ?_
          (fun x hx => hsen x (by simp [hx])) hres p hp
        omega

/-- **C8 (amended)**: whenever `split_long_response` returns (it can raise
`IndexError`, modelled as `none`), every chunk is at most
`max(max_length + 2, longest sentence unit)` characters: merges undercount
the two-character `'\n\n'` / `'. '` separators, and a single sentence
longer than the limit is emitted whole — there is no hard character cut. -/
theorem split_long_response_bound (response : String) (max_length : Int)
    (hL : 0 < max_length) (parts : List String)
    (h : Core.split_long_response response max_length = some parts) :
    ∀ chunk ∈ parts, (pyLen chunk : Int) ≤
      max (max_length + 2) (Core.max_unit_len response : Int) := by
  set B := max (max_length + 2) (Core.max_unit_len response : Int) with hB
  have hB2 : max_length + 2 ≤ B := le_max_left _ _
  rw [Core.split_long_response] at h
  split at h
  · rcases Option.some.inj h with rfl
    intro chunk hc
    rcases List.mem_singleton.mp hc with rfl
    rename_i hfit
    omega
  · have hB0 : (0 : Int) ≤ B :=
      le_trans (Int.natCast_nonneg _) (le_max_right _ _)
    exact Core.splitResponseAux_bound max_length B hB2 hB0
      (pySplit response "\n\n") [] "" parts
      (by intro x hx; cases hx) (by simpa [pyLen] using hB0)
      (fun para hpara s hs => le_trans
        (by exact_mod_cast Core.unit_le_max_unit_len hpara hs)
        (le_max_right _ _)) h

end Core

/-- **C8 (counterexample)**: there is no hard character cut.  A
10-character response with no paragraph or sentence separators and limit 5
is returned as one 10-character chunk, exceeding the limit. -/
theorem split_no_hard_cut_counterexample :
    Core.split_long_response "aaaaaaaaaa" 5 = some ["aaaaaaaaaa"] ∧
    (0 : Int) < 5 ∧
    ¬ ((pyLen "aaaaaaaaaa" : Int) ≤ 5) := by
  refine ⟨?_, ?_, ?_⟩ <;> decide

/-- Concrete instance of the amended C8 bound. -/
theorem split_long_response_bound_witness :
    Core.split_long_response "aaaa\n\nbbbb" 4 = some ["aaaa", "bbbb"] ∧
    (pyLen "aaaa" : Int) ≤
      max ((4 : Int) + 2) (Core.max_unit_len "aaaa\n\nbbbb" : Int) :=
  ⟨by decide,
   Core.split_long_response_bound "aaaa\n\nbbbb" 4 (by decide) ["aaaa", "bbbb"]
     (by decide) "aaaa" (by decide)⟩
